import Mathlib

/-!
# Verification of the vultisig/agent-backend context-window subsystem

This file gives a shallow embedding, in Lean 4, of the core of the
`agent-backend` Go service: the cursor-based context-window manager
(`getConversationWindow` / `summarizeOldMessages`), the policy-builder and
action-confirmation abilities (`buildPolicy`, `handleInstallRequired`,
`confirmAction`), the Redis-backed suggestion / pending-build cache, and the
pure helpers `toBaseUnits` and `truncateTitle`.

Conventions of the embedding:
* Go machine integers that are used as counts are modelled as `Nat`.
* Go `string` values that the code manipulates byte-wise (`truncateTitle`)
  are modelled as `List UInt8`; strings used only as opaque text are
  modelled as `String`.
* `time.Time` creation timestamps are modelled as `Nat`.
* Fallible external calls (Anthropic, verifier) are oracles returning
  `Option`; a `none` result models a transport / API error.
* Database and cache state for a single conversation is a `World` record;
  each Go repository method becomes a pure function over it.
-/

namespace AgentBackend

/-! ## `toBaseUnits` (internal/service/agent/policy.go)

Go source:
```
func toBaseUnits(amount string, decimals int) string {
    parts := strings.SplitN(amount, ".", 2)
    ...
}
```
Byte-level note: the Go code slices `frac[:decimals]` by bytes.  On any
input where the byte view and the character view of `frac` differ, both
views contain a non-ASCII unit in the truncated/padded fragment exactly when
the other does, and `big.Int.SetString` fails in both; so the character-level
model below agrees with the byte-level Go code on every input. -/

/-- `strings.SplitN(s, ".", 2)` as a split at the first `'.'`:
`none` when the string has no dot, otherwise the parts before and after the
first dot. -/
def splitFirstDot : List Char → Option (List Char × List Char)
  | [] => none
  | c :: cs =>
    if c = '.' then some ([], cs)
    else
      match splitFirstDot cs with
      | none => none
      | some (a, b) => some (c :: a, b)

/-- Fold a list of decimal digit characters to a natural number. -/
def digitsToNat (l : List Char) : Nat :=
  l.foldl (fun n c => n * 10 + (c.toNat - Char.toNat '0')) 0

/-- `new(big.Int).SetString(s, 10)`: an optional sign followed by at least
one ASCII decimal digit; anything else fails. -/
def setStringBase10 (s : List Char) : Option Int :=
  match s with
  | [] => none
  | c :: rest =>
    let signed : Bool × List Char :=
      if c = '-' then (true, rest)
      else if c = '+' then (false, rest)
      else (false, c :: rest)
    match signed with
    | (neg, digits) =>
      if digits.isEmpty then none
      else if digits.all Char.isDigit then
        let n : Int := digitsToNat digits
        some (if neg then -n else n)
      else none

/-- The `whole ++ frac` digit string that `toBaseUnits` hands to
`big.Int.SetString` (fraction padded or truncated to `decimals` digits). -/
def rawBaseUnitDigits (amount : String) (decimals : Nat) : List Char :=
  let parts :=
    match splitFirstDot amount.toList with
    | none => (amount.toList, ([] : List Char))
    | some (a, b) => (a, b)
  let whole := parts.1
  let frac0 := parts.2
  let frac :=
    if decimals < frac0.length then
      frac0.take decimals
    else
      frac0 ++ List.replicate (decimals - frac0.length) '0'
  whole ++ frac

/-- `toBaseUnits` converts a human-readable decimal string to base units,
returning the original string unchanged when the digits do not parse. -/
def toBaseUnits (amount : String) (decimals : Nat) : String :=
  match setStringBase10 (rawBaseUnitDigits amount decimals) with
  | none => amount
  | some result => toString result

/-! ## `truncateTitle` (internal/service/agent/intent.go)

Go strings are byte strings and `len` / slicing operate on bytes, so the
function is modelled on `List UInt8`. -/

/-- The Go constant `maxLen = 50` inside `truncateTitle`. -/
def titleMaxLen : Nat := 50

/-- The UTF-8 bytes of the literal `"..."` appended by `truncateTitle`. -/
def ellipsisBytes : List UInt8 := [46, 46, 46]

/-- `truncateTitle` truncates content to create a conversation title
(byte-level semantics of the Go code). -/
def truncateTitle (content : List UInt8) : List UInt8 :=
  if content.length ≤ titleMaxLen then content
  else content.take (titleMaxLen - 3) ++ ellipsisBytes

/-- A UTF-8 continuation byte (`0x80 ≤ b < 0xC0`); every encoded character
contributes exactly one non-continuation byte. -/
def isUtf8ContinuationByte (b : UInt8) : Bool :=
  decide (128 ≤ b.toNat) && decide (b.toNat < 192)

/-- Number of UTF-8 characters in a byte string: count the bytes that start
a character. -/
def utf8CharCount (s : List UInt8) : Nat :=
  (s.filter (fun b => ! isUtf8ContinuationByte b)).length

/-- The UTF-8 encoding of `'€'` (U+20AC). -/
def euroBytes : List UInt8 := [226, 130, 172]

/-- A 40-character, 120-byte input: 40 euro signs. -/
def fortyEuros : List UInt8 := (List.replicate 40 euroBytes).flatten

/-! ## JSON-ish values

`map[string]any` configuration objects (the `build_policy` tool output and
the verifier configuration) are modelled as a first-order JSON fragment:
string leaves and string-keyed objects, the only shapes the embedded code
paths inspect. -/

inductive JVal where
  | str (s : String)
  | obj (fields : List (String × JVal))

/-- Lookup in a JSON object's field list (Go map indexing). -/
def lookupField (fields : List (String × JVal)) (k : String) : Option JVal :=
  (fields.find? (fun f => f.1 = k)).map (fun f => f.2)

/-- Go map assignment `config[k] = v`: replace the binding if present,
otherwise add it. -/
def setField : List (String × JVal) → String → JVal → List (String × JVal)
  | [], k, v => [(k, v)]
  | (k', v') :: rest, k, v =>
    if k' = k then (k, v) :: rest else (k', v') :: setField rest k v

/-- `fmt.Sprintf("%v", x)` on a decoded JSON value: a string prints as
itself; a map prints as an opaque non-numeric rendering (modelled as a JSON
rendering; like Go's `map[...]` form it never parses as an integer, so
`toBaseUnits` treats both the same way). -/
def renderJVal : JVal → String
  | .str s => "\x22" ++ s ++ "\x22"
  | .obj fields => "\x7b" ++ renderFields fields ++ "\x7d"
where
  renderFields : List (String × JVal) → String
    | [] => ""
    | [(k, v)] => "\x22" ++ k ++ "\x22:" ++ renderJVal v
    | (k, v) :: rest =>
      "\x22" ++ k ++ "\x22:" ++ renderJVal v ++ "," ++ renderFields rest

/-- `fmt.Sprintf("%v", amountVal)`: a plain string prints without quotes. -/
def govFormat : JVal → String
  | .str s => s
  | v => renderJVal v

/-! ## Request/response data (internal/service/agent/types.go) -/

/-- A token balance from the caller's wallet context. -/
structure Balance where
  chain : String
  asset : String
  symbol : String
  amount : String
  decimals : Nat
deriving DecidableEq

/-- An ephemeral action suggestion (stored in Redis). -/
structure Suggestion where
  id : String
  pluginID : String
  title : String
  description : String
deriving DecidableEq

/-- The result of a user action reported on the Confirm path. -/
structure ActionResult where
  action : String
  success : Bool
  error : String
deriving DecidableEq

/-- `strings.EqualFold` (modelled as case-insensitive comparison). -/
def eqFold (a b : String) : Bool :=
  a.toLower == b.toLower

/-- `convertAmountToBaseUnits` (internal/service/agent/policy.go): convert
`config["fromAmount"]` to base units using the decimals of the balance whose
asset matches `config["from"].token`, defaulting to 18. -/
def convertAmountToBaseUnits (config : List (String × JVal))
    (balances : List Balance) : List (String × JVal) :=
  match lookupField config "fromAmount" with
  | none => config
  | some amountVal =>
    let amountStr := govFormat amountVal
    let decimals :=
      match lookupField config "from" with
      | some (JVal.obj fromFields) =>
        match lookupField fromFields "token" with
        | some (JVal.str token) =>
          if token ≠ "" then
            match balances.find? (fun b => eqFold b.asset token) with
            | some b => b.decimals
            | none => 18
          else 18
        | _ => 18
      | _ => 18
    let baseUnits := toBaseUnits amountStr decimals
    setField config "fromAmount" (JVal.str baseUnits)

/-! ## Messages, conversation record and cache state

One `World` holds the database and cache state relevant to a single
conversation, as the repositories expose it:
* `msgs` is the append-only message log, ordered by creation timestamp
  (the `ORDER BY created_at ASC` contract of the sqlc queries);
* `summary`/`cursor` are the conversation record's `summary` and
  `summary_up_to` columns, read and written together by
  `GetConversationSummaryWithCursor` / `UpdateConversationSummaryWithCursor`;
* `cache` is the Redis key space (suggestions and pending-build markers),
  each entry remembering the TTL it was stored with;
* `memories` is the per-user memory document store;
* `folded` is a ghost field recording every message whose content has been
  included in an old-message block handed to the summarizer (it mirrors
  "folded into the summary" and is written only together with a successful
  summary update);
* `now` is the database clock assigning `created_at` values. -/

/-- A stored conversation message (`types.Message`); `meta` is the marshalled
JSON metadata blob, if any. -/
structure Msg where
  role : String
  content : String
  contentType : String
  meta : Option String
  createdAt : Nat
deriving DecidableEq

/-- A Redis value: either a plain string (pending-build markers) or a
marshalled `Suggestion` blob. -/
inductive CacheVal where
  | str (s : String)
  | sugg (s : Suggestion)
deriving DecidableEq

/-- A Redis entry together with the TTL it was stored with. -/
structure CacheEntry where
  val : CacheVal
  ttl : Nat
deriving DecidableEq

abbrev Cache := List (String × CacheEntry)

/-- Database and cache state for one conversation. -/
structure World where
  msgs : List Msg
  summary : Option String
  cursor : Option Nat
  cache : Cache
  memories : List (String × String)
  folded : List Msg
  now : Nat
deriving DecidableEq

/-- `redis.Get` (a missing key is an error in Go; modelled as `none`). -/
def cacheGet (c : Cache) (k : String) : Option CacheVal :=
  match c with
  | [] => none
  | e :: rest => if e.1 = k then some e.2.val else cacheGet rest k

/-- The stored entry for a key, TTL included. -/
def cacheGetEntry (c : Cache) (k : String) : Option CacheEntry :=
  match c with
  | [] => none
  | e :: rest => if e.1 = k then some e.2 else cacheGetEntry rest k

/-- `redis.Delete`. -/
def cacheDelete (c : Cache) (k : String) : Cache :=
  match c with
  | [] => []
  | e :: rest => if e.1 = k then cacheDelete rest k else e :: cacheDelete rest k

/-- `redis.Set` with a TTL (SET replaces any existing value). -/
def cacheSet (c : Cache) (k : String) (v : CacheVal) (ttl : Nat) : Cache :=
  (k, ⟨v, ttl⟩) :: cacheDelete c k

/-! ### Message repository (internal/storage/postgres + sqlc/messages.sql) -/

/-- `WHERE created_at > $2` — strictly after the cursor. -/
def msgsSince (msgs : List Msg) (t : Nat) : List Msg :=
  msgs.filter (fun m => t < m.createdAt)

/-- `CountMessagesByConversationID`. -/
def countByConversationID (w : World) : Nat :=
  w.msgs.length

/-- `GetMessagesByConversationID` (ascending by `created_at`). -/
def getByConversationID (w : World) : List Msg :=
  w.msgs

/-- `GetRecentMessages` then the Go-side reversal: the query returns the
newest `limit` rows descending and the repository reverses them back to
chronological order. -/
def getRecent (w : World) (limit : Nat) : List Msg :=
  (w.msgs.reverse.take limit).reverse

/-- `CountMessagesSince`. -/
def countSince (w : World) (t : Nat) : Nat :=
  (msgsSince w.msgs t).length

/-- `GetMessagesSince` (ascending by `created_at`). -/
def getSince (w : World) (t : Nat) : List Msg :=
  msgsSince w.msgs t

/-- `GetRecentMessagesSince` then the Go-side reversal. -/
def getRecentSince (w : World) (t : Nat) (limit : Nat) : List Msg :=
  ((msgsSince w.msgs t).reverse.take limit).reverse

/-- `UpdateConversationSummaryWithCursor`: one atomic store of summary text
and `summary_up_to`. -/
def updateSummaryWithCursor (w : World) (text : String) (ts : Nat) : World :=
  { w with summary := some text, cursor := some ts }

/-- `MessageRepository.Create`: the database assigns the `created_at`
timestamp (`DEFAULT NOW()`); the clock advances so creation order and
timestamp order agree. -/
def createMessage (w : World) (role content contentType : String)
    (meta : Option String) : World × Msg :=
  let msg : Msg :=
    { role := role, content := content, contentType := contentType,
      meta := meta, createdAt := w.now }
  ({ w with msgs := w.msgs ++ [msg], now := w.now + 1 }, msg)

/-- `MemoryRepository.GetMemory` (nil when no row exists). -/
def getMemory (w : World) (publicKey : String) : Option String :=
  (w.memories.find? (fun e => e.1 = publicKey)).map (fun e => e.2)

/-- `MemoryRepository.UpsertMemory` (whole-document replace). -/
def upsertMemory (w : World) (publicKey content : String) : World :=
  { w with
    memories := (publicKey, content) :: w.memories.filter (fun e => e.1 ≠ publicKey) }

/-! ## Anthropic adapter model (internal/ai/anthropic)

`SendMessage` is an external oracle `AnthReq → Option AnthResp`; `none`
models a transport/API error.  Tool inputs arrive as typed payloads
(`ToolInput`), the shallow counterpart of the JSON blobs the Go code
unmarshals; `badIn` stands for a payload the target struct cannot decode. -/

structure AnthMsg where
  role : String
  content : String

/-- An Anthropic API request; `model = ""` and `maxTokens = 0` are the Go
zero values (field not set). -/
structure AnthReq where
  model : String
  maxTokens : Nat
  system : String
  messages : List AnthMsg
  tools : List String
  toolChoice : Option String

inductive ToolInput where
  | policyIn (configuration : List (String × JVal)) (explanation : String)
  | confirmIn (response : String) (nextSteps : List String)
  | memoryIn (content : String)
  | badIn

/-- One response content block (`type` is `"text"` or `"tool_use"`). -/
structure Block where
  type : String
  text : String
  name : String
  input : ToolInput

structure AnthResp where
  content : List Block

/-- The text-extraction loop shared by the summarizer: the first block with
`Type == "text"`, or `""` when there is none. -/
def extractFirstText (resp : AnthResp) : String :=
  match resp.content.find? (fun b => b.type = "text") with
  | some b => b.text
  | none => ""

/-! ## Prompt construction (internal/service/agent/prompt.go) -/

def SummarizationPrompt : String :=
  "Summarize the following conversation between a user and the Vultisig AI assistant. Focus on:\n- Key user intents and requests\n- Important decisions made\n- Assets, amounts, chains, and addresses mentioned\n- Actions taken or pending\n\nBe concise but preserve all actionable details. This summary will be used as context for future messages."

/-- `BuildSystemPromptWithSummary` appends an earlier conversation summary
to the base system prompt. -/
def BuildSystemPromptWithSummary (basePrompt : String) (summary : Option String) : String :=
  match summary with
  | none => basePrompt
  | some s => basePrompt ++ "\n\n## Earlier Conversation Summary\n\n" ++ s

/-- `BuildMemorySection` wraps the memory document for prompt injection. -/
def BuildMemorySection (content : String) : String :=
  if content = "" then ""
  else
    "\n\n## Your Memories About This User\n\n" ++
    "This is your persistent memory document about this user. Use it to personalize\n" ++
    "your responses naturally — don't repeat it back unless relevant.\n\n" ++
    content

def ConfirmActionPrompt : String :=
  "You are the Vultisig AI assistant. The user just completed an action in the app, and you need to confirm the result.\n\n## Guidelines\n\n1. **For successful actions**: Celebrate briefly and summarize what was accomplished. Remind them what the automation will do.\n2. **For failed actions**: Be empathetic, explain what went wrong in simple terms, and offer helpful next steps.\n3. **Keep it concise**: Users are on mobile devices.\n4. **Be specific**: Reference the actual action that was taken based on the conversation history.\n\n## Common Actions\n\n- **create_policy**: User created a recurring automation (DCA, swap, send)\n- **install_plugin**: User installed a plugin to enable new features\n- **cancel_policy**: User cancelled an active automation\n- **update_policy**: User modified an existing automation"

/-- `BuildConfirmActionPrompt` (Ability 3 system prompt). -/
def BuildConfirmActionPrompt (result : ActionResult) : String :=
  ConfirmActionPrompt ++ "\n\n## Action Result\n" ++ "Action: " ++ result.action ++
    "\nSuccess: " ++
    (if result.success then "Yes"
     else "No" ++ (if result.error ≠ "" then "\nError: " ++ result.error else ""))

def PolicyBuilderPrompt : String :=
  "You are building a policy configuration for the Vultisig wallet.\n\nBased on the conversation history and the user's selected action, create a configuration that matches the plugin's schema.\n\n## Instructions\n\n1. Extract relevant parameters from the conversation (amounts, tokens, chains, frequency, etc.)\n2. Map them to the plugin's schema fields\n3. Use the user's wallet addresses for source addresses\n4. For tokens, use the correct token contract addresses (e.g., \x220xa0b86991c6218b36c1d19d4a2e9eb0ce3606eb48\x22 for USDC). For native assets (ETH, BTC, etc.), leave the token field as an empty string \x22\x22\n5. Ensure amounts are in human-readable format (e.g., \x2210\x22 for 10 USDC, \x220.5\x22 for 0.5 ETH)\n\n## Important\n\n- Use the addresses from the user's context for the \x22from\x22 address\n- If the user mentioned specific amounts, use those — but never set a swap amount below ~$5 equivalent, as DEX providers will reject swaps that are too small\n- If the user's balance for the source asset is below ~$5 equivalent, the swap will likely fail — include a warning in the explanation\n- If no balance information is available, use the user's requested amount but note in the explanation that they should ensure sufficient funds\n- Amounts are in human-readable form (e.g., \x2210\x22 means 10 USDC, \x220.01\x22 means 0.01 ETH)\n- If frequency was discussed, include it\n- If any required field is unclear, make a reasonable default based on the conversation"

/-- The wallet-context section shared by the prompt builders. -/
def walletContextSection (balances : List Balance)
    (addresses : List (String × String)) (forPolicy : Bool) : String :=
  if balances.length > 0 || addresses.length > 0 then
    "\n\n## User's Wallet Context\n" ++
    (if balances.length > 0 then
      "\n### Balances\n" ++
      balances.foldl (fun acc b =>
        acc ++ "- " ++ b.symbol ++ " on " ++ b.chain ++ ": " ++ b.amount ++
          (if forPolicy then " (" ++ b.asset ++ ")" else "") ++ "\n") ""
     else "") ++
    (if addresses.length > 0 then
      (if forPolicy then "\n### Addresses (use these for 'from' fields)\n"
       else "\n### Addresses\n") ++
      addresses.foldl (fun acc a =>
        acc ++ "- " ++ a.1 ++ ": " ++ a.2 ++ "\n") ""
     else "")
  else ""

/-- `BuildPolicyBuilderPrompt` (Ability 2 system prompt). -/
def BuildPolicyBuilderPrompt (suggestion : Suggestion)
    (configSchemaJSON examplesJSON : String) (balances : List Balance)
    (addresses : List (String × String)) : String :=
  PolicyBuilderPrompt ++
    "\n\n## Selected Action\n" ++ "Title: " ++ suggestion.title ++
    "\nDescription: " ++ suggestion.description ++
    "\nPlugin: " ++ suggestion.pluginID ++
    "\n\n## Configuration Schema\n" ++
    "The configuration must match this JSON schema:\n```json\n" ++
    configSchemaJSON ++ "\n```" ++
    (if examplesJSON ≠ "" then
      "\n\n## Configuration Examples\n" ++
      "Here are valid configuration examples:\n```json\n" ++
      examplesJSON ++ "\n```"
     else "") ++
    walletContextSection balances addresses true

/-! ## The context-window manager (cursor-based final revision)

This is the `getConversationWindow` / `summarizeOldMessages` pair of the
cursor-based `AgentService` (the spec's §4.1 algorithm); the repository also
carries two superseded revisions of the same logic, which the spec treats as
historical artifacts. -/

/-- Deployment configuration of the agent service. -/
structure Ctx where
  windowSize : Nat
  summarizeTrigger : Nat
  summaryMaxTokens : Nat
  summaryModel : String
  hasVerifier : Bool
  hasMemRepo : Bool

/-- The external collaborators of the agent service. -/
structure Externals where
  send : AnthReq → Option AnthResp
  isPluginInstalled : String → String → Option Bool
  getRecipeSchema : String → Option (String × String)
  getPolicySuggest : String → List (String × JVal) → Option String

/-- The windowed view of a conversation (`conversationWindow`). -/
structure Window where
  messages : List Msg
  summary : Option String
  total : Nat
deriving DecidableEq

/-- A fallback message value for the (guarded) last-element access
`oldMsgs[len(oldMsgs)-1]`. -/
def defaultMsg : Msg :=
  { role := "", content := "", contentType := "", meta := none, createdAt := 0 }

/-- The `[role]: content` concatenation of the old-message block. -/
def oldContentOf (oldMsgs : List Msg) : String :=
  oldMsgs.foldl (fun acc m => acc ++ "[" ++ m.role ++ "]: " ++ m.content ++ "\n\n") ""

/-- The summarization request `summarizeOldMessages` sends: previous summary
(if any) plus the old-message block, to the cheap summary model. -/
def summarizationRequest (cfg : Ctx) (existingSummary : Option String)
    (oldMsgs : List Msg) : AnthReq :=
  let prompt0 :=
    match existingSummary with
    | some s => SummarizationPrompt ++ "\n\n## Previous Summary\n\n" ++ s
    | none => SummarizationPrompt
  let prompt := prompt0 ++ "\n\n## Messages to Summarize\n\n" ++ oldContentOf oldMsgs
  { model := cfg.summaryModel, maxTokens := cfg.summaryMaxTokens, system := "",
    messages := [⟨"user", prompt⟩], tools := [], toolChoice := none }

/-- `summarizeOldMessages`: summarize everything but the trailing
`windowSize` messages of `allMsgs` and atomically store summary + cursor.
The `Bool` result is `false` exactly when the Go function returns an error
(engine failure or empty text); the state is unchanged in that case. -/
def summarizeOldMessages (cfg : Ctx) (ext : Externals) (w : World)
    (allMsgs : List Msg) : World × Bool :=
  if allMsgs.length ≤ cfg.windowSize then (w, true)
  else
    let oldMsgs := allMsgs.take (allMsgs.length - cfg.windowSize)
    match ext.send (summarizationRequest cfg w.summary oldMsgs) with
    | none => (w, false)
    | some resp =>
      let summaryText := extractFirstText resp
      if summaryText = "" then (w, false)
      else
        let summaryUpTo := (oldMsgs.getLastD defaultMsg).createdAt
        ({ updateSummaryWithCursor w summaryText summaryUpTo with
            folded := w.folded ++ oldMsgs }, true)

/-- `getConversationWindow` (cursor-based): count/load only messages after
the `summary_up_to` cursor, summarizing synchronously when the active count
crosses the trigger.  Returns the possibly-updated state together with the
window. -/
def getConversationWindow (cfg : Ctx) (ext : Externals) (w : World) :
    World × Window :=
  match w.cursor with
  | some c =>
    let count := countSince w c
    if count ≤ cfg.windowSize then
      -- Active messages fit in window — load all since cursor
      (w, ⟨getSince w c, w.summary, count⟩)
    else if cfg.summarizeTrigger < count then
      -- Active messages exceed trigger — re-summarize, then reload
      let allSinceCursor := getSince w c
      let w1 := (summarizeOldMessages cfg ext w allSinceCursor).1
      match w1.cursor with
      | some c2 =>
        let recentMsgs := getRecentSince w1 c2 cfg.windowSize
        (w1, ⟨recentMsgs, w1.summary, recentMsgs.length⟩)
      | none =>
        -- Unreachable: the cursor was set on entry and a summarization
        -- never clears it; the Go code would dereference a nil cursor here.
        (w1, ⟨[], w1.summary, 0⟩)
    else
      -- Between window and trigger — load recent since cursor
      (w, ⟨getRecentSince w c cfg.windowSize, w.summary, count⟩)
  | none =>
    let total := countByConversationID w
    if total ≤ cfg.windowSize then
      -- All messages fit in window
      (w, ⟨getByConversationID w, none, total⟩)
    else if cfg.summarizeTrigger < total then
      -- Past trigger — first-time summarization
      let allMsgs := getByConversationID w
      let r := summarizeOldMessages cfg ext w allMsgs
      if r.2 = false then
        -- Summarization failed: degrade to the full message list
        (r.1, ⟨allMsgs, none, total⟩)
      else
        match r.1.cursor with
        | some c2 =>
          let recentMsgs := getRecentSince r.1 c2 cfg.windowSize
          (r.1, ⟨recentMsgs, r.1.summary, recentMsgs.length⟩)
        | none =>
          -- Fallback if cursor wasn't set (shouldn't happen)
          (r.1, ⟨getRecent r.1 cfg.windowSize, r.1.summary, total⟩)
    else
      -- Between window and trigger, no cursor yet — load all messages
      (w, ⟨getByConversationID w, none, total⟩)

/-! ## Abilities 2 and 3: policy builder and action confirmation
(internal/service/agent/policy.go, confirm.go) -/

/-- `suggestionTTL = 1 * time.Hour`, in seconds. -/
def suggestionTTL : Nat := 3600

/-- `maxMemoryChars = 4000`. -/
def maxMemoryChars : Nat := 4000

/-- The Redis key `fmt.Sprintf("pending_build:%s", convID)`. -/
def pendingBuildKey (convID : String) : String :=
  "pending_build:" ++ convID

/-- The wallet context carried by a send-message request. -/
structure MessageContext where
  balances : List Balance
  addresses : List (String × String)

/-- `SendMessageRequest`. -/
structure SendMessageRequest where
  publicKey : String
  content : String
  context : Option MessageContext
  selectedSuggestionID : Option String
  actionResult : Option ActionResult
  accessToken : String

/-- A policy-ready payload (`PolicyReady`). -/
structure PolicyReady where
  pluginID : String
  configuration : List (String × JVal)
  policySuggest : String

/-- An install-required payload (`InstallRequired`). -/
structure InstallRequired where
  pluginID : String
  title : String
  description : String
deriving DecidableEq

/-- `SendMessageResponse`. -/
structure SendMessageResponse where
  message : Msg
  suggestions : List Suggestion
  policyReady : Option PolicyReady
  installRequired : Option InstallRequired

/-- The parsed `confirm_action` tool output. -/
structure ConfirmResponse where
  response : String
  nextSteps : List String
deriving DecidableEq

/-- `anthropicMessagesFromWindow`: window messages in Anthropic format,
skipping system messages. -/
def anthropicMessagesFromWindow (window : Window) : List AnthMsg :=
  (window.messages.filter (fun m => m.role ≠ "system")).map
    (fun m => ⟨m.role, m.content⟩)

/-- `loadMemorySection` (memory.go): the memory prompt section, `""` when
no repository or no document. -/
def loadMemorySection (cfg : Ctx) (w : World) (publicKey : String) : String :=
  if cfg.hasMemRepo then
    match getMemory w publicKey with
    | some content => BuildMemorySection content
    | none => ""
  else ""

/-- `parsePolicyResponse`: the first `build_policy` tool block, decoded. -/
def parsePolicyResponse (resp : AnthResp) :
    Except String (List (String × JVal) × String) :=
  match resp.content.find? (fun b => b.type = "tool_use" && b.name = "build_policy") with
  | some b =>
    match b.input with
    | .policyIn configuration explanation => .ok (configuration, explanation)
    | _ => .error "unmarshal tool input"
  | none => .error "no build_policy tool response found"

/-- `parseConfirmResponseWithMemory`: scan all blocks; a malformed
`confirm_action` payload is fatal, a malformed `update_memory` payload is
skipped; later blocks of the same tool overwrite earlier ones. -/
def parseConfirmResponseWithMemory (resp : AnthResp) :
    Except String (ConfirmResponse × Option String) :=
  let folded := resp.content.foldl
    (fun (acc : Except String (Option ConfirmResponse × Option String)) b =>
      match acc with
      | .error e => .error e
      | .ok (cr, mu) =>
        if b.type ≠ "tool_use" then .ok (cr, mu)
        else if b.name = "confirm_action" then
          match b.input with
          | .confirmIn response nextSteps => .ok (some ⟨response, nextSteps⟩, mu)
          | _ => .error "unmarshal confirm_action"
        else if b.name = "update_memory" then
          match b.input with
          | .memoryIn content => .ok (cr, some content)
          | _ => .ok (cr, mu)
        else .ok (cr, mu))
    (.ok (none, none))
  match folded with
  | .error e => .error e
  | .ok (none, _) => .error "no confirm_action tool response found"
  | .ok (some cr, mu) => .ok (cr, mu)

/-- `buildActionResultMessage`: the synthetic user message describing an
action result. -/
def buildActionResultMessage (result : ActionResult) : String :=
  if result.success then
    "[Action completed: " ++ result.action ++ " was successful]"
  else if result.error ≠ "" then
    "[Action failed: " ++ result.action ++ " failed with error: " ++ result.error ++ "]"
  else
    "[Action failed: " ++ result.action ++ " was not successful]"

/-- The marshalled `PolicyReadyMetadata` blob stored on the policy-ready
assistant message (`policy_suggest` is the verifier's opaque JSON payload,
embedded as-is). -/
def policyReadyMetadataJSON (pluginID policySuggest : String)
    (configuration : List (String × JVal)) : String :=
  "\x7b\x22type\x22:\x22policy_ready\x22,\x22action\x22:\x22create_policy\x22,\x22plugin_id\x22:\x22" ++
    pluginID ++ "\x22,\x22policy_suggest\x22:" ++ policySuggest ++
    ",\x22configuration\x22:" ++ renderJVal (JVal.obj configuration) ++ "\x7d"

/-- The balances of a request's wallet context (empty without context). -/
def reqBalances (req : SendMessageRequest) : List Balance :=
  match req.context with
  | some c => c.balances
  | none => []

/-- The addresses of a request's wallet context (empty without context). -/
def reqAddresses (req : SendMessageRequest) : List (String × String) :=
  match req.context with
  | some c => c.addresses
  | none => []

/-- The Anthropic request `buildPolicy` sends (forced `build_policy` tool;
no model/token override). -/
def buildPolicyAnthReq (cfg : Ctx) (w : World) (req : SendMessageRequest)
    (window : Window) (suggestion : Suggestion)
    (configSchemaJSON examplesJSON : String) : AnthReq :=
  let basePrompt := BuildPolicyBuilderPrompt suggestion configSchemaJSON
    examplesJSON (reqBalances req) (reqAddresses req)
  let basePrompt := basePrompt ++ loadMemorySection cfg w req.publicKey
  { model := "", maxTokens := 0,
    system := BuildSystemPromptWithSummary basePrompt window.summary,
    messages := anthropicMessagesFromWindow window,
    tools := ["build_policy"], toolChoice := some "build_policy" }

/-- `handleInstallRequired`: store the pending-build marker (conversation →
suggestion id, 1-hour TTL), store an assistant message, and return the
install-required payload. -/
def handleInstallRequired (convID : String) (suggestion : Suggestion)
    (w : World) : World × Except String SendMessageResponse :=
  let w1 := { w with
    cache := cacheSet w.cache (pendingBuildKey convID)
      (CacheVal.str suggestion.id) suggestionTTL }
  let content := "To use " ++ suggestion.title ++
    ", you need to install the plugin first. Please install it and try again."
  let created := createMessage w1 "assistant" content "text" none
  (created.1, .ok
    { message := created.2, suggestions := [], policyReady := none,
      installRequired := some
        ⟨suggestion.pluginID, suggestion.title,
         "Install " ++ suggestion.title ++ " to set up your automation"⟩ })

/-- `buildPolicy` (Ability 2): look up the selected suggestion, check the
plugin installation, fetch the schema, force a `build_policy` completion,
convert the amount to base units, obtain the verifier's policy suggestion,
store the assistant message, and return the policy-ready payload. -/
def buildPolicy (cfg : Ctx) (ext : Externals) (convID : String)
    (req : SendMessageRequest) (window : Window) (w : World) :
    World × Except String SendMessageResponse :=
  match req.selectedSuggestionID with
  | none => (w, .error "selected_suggestion_id is required for policy builder")
  | some sid =>
    match cacheGet w.cache sid with
    | none => (w, .error "suggestion not found or expired")
    | some (CacheVal.str _) => (w, .error "unmarshal suggestion")
    | some (CacheVal.sugg suggestion) =>
      if cfg.hasVerifier = false then
        (w, .error "verifier client not configured")
      else
        -- Installation check: skipped without an access token; a check
        -- error is logged and ignored (continue anyway).
        let check :=
          if req.accessToken ≠ "" then
            ext.isPluginInstalled req.accessToken suggestion.pluginID
          else none
        if check = some false then
          handleInstallRequired convID suggestion w
        else
          match ext.getRecipeSchema suggestion.pluginID with
          | none => (w, .error "get recipe schema")
          | some schema =>
            match ext.send (buildPolicyAnthReq cfg w req window suggestion schema.1 schema.2) with
            | none => (w, .error "call anthropic")
            | some resp =>
              match parsePolicyResponse resp with
              | .error e => (w, .error ("parse policy response: " ++ e))
              | .ok pr =>
                let configuration := convertAmountToBaseUnits pr.1 (reqBalances req)
                match ext.getPolicySuggest suggestion.pluginID configuration with
                | none => (w, .error "get policy suggest")
                | some policySuggest =>
                  let responseContent :=
                    if pr.2 ≠ "" then
                      pr.2 ++ "\n\nPlease review and confirm to create the policy."
                    else
                      "I've prepared your " ++ suggestion.title ++
                        ". Please review the details below and confirm to create the policy."
                  let created := createMessage w "assistant" responseContent "text"
                    (some (policyReadyMetadataJSON suggestion.pluginID policySuggest configuration))
                  (created.1, .ok
                    { message := created.2, suggestions := [],
                      policyReady := some ⟨suggestion.pluginID, configuration, policySuggest⟩,
                      installRequired := none })

/-- The Anthropic request `confirmAction` sends (window plus the synthetic
action-result user message; optional tool choice). -/
def confirmAnthReq (cfg : Ctx) (w : World) (publicKey : String)
    (result : ActionResult) (window : Window) : AnthReq :=
  let basePrompt := BuildConfirmActionPrompt result ++
    (if cfg.hasMemRepo then
      match getMemory w publicKey with
      | some mem => BuildMemorySection mem
      | none => ""
     else "")
  { model := "", maxTokens := 0,
    system := BuildSystemPromptWithSummary basePrompt window.summary,
    messages := anthropicMessagesFromWindow window ++
      [⟨"user", buildActionResultMessage result⟩],
    tools := if cfg.hasMemRepo then ["confirm_action", "update_memory"]
             else ["confirm_action"],
    toolChoice := none }

/-- `confirmAction` (Ability 3): store the synthetic action-result message,
run the confirmation completion, best-effort persist a memory update, store
the assistant message and — when a successful `install_plugin` finds a
pending-build marker — consume the marker (delete first) and transparently
re-invoke `buildPolicy`, splicing the confirmation text over its message. -/
def confirmAction (cfg : Ctx) (ext : Externals) (convID : String)
    (req : SendMessageRequest) (window : Window) (w : World) :
    World × Except String SendMessageResponse :=
  match req.actionResult with
  | none => (w, .error "action_result is required for action confirmation")
  | some result =>
    let areq := confirmAnthReq cfg w req.publicKey result window
    let created := createMessage w "user" (buildActionResultMessage result) "action_result" none
    let w1 := created.1
    match ext.send areq with
    | none => (w1, .error "call anthropic")
    | some resp =>
      match parseConfirmResponseWithMemory resp with
      | .error e => (w1, .error ("parse confirm response: " ++ e))
      | .ok pcr =>
        let confirmResp := pcr.1
        let w2 :=
          match pcr.2 with
          | some content =>
            if cfg.hasMemRepo && content.length ≤ maxMemoryChars then
              upsertMemory w1 req.publicKey content
            else w1
          | none => w1
        let createdA := createMessage w2 "assistant" confirmResp.response "text" none
        let w3 := createdA.1
        let assistantMsg := createdA.2
        let plain : SendMessageResponse :=
          { message := assistantMsg, suggestions := [], policyReady := none,
            installRequired := none }
        if result.action = "install_plugin" && result.success then
          match cacheGet w3.cache (pendingBuildKey convID) with
          | some (CacheVal.str suggID) =>
            if suggID ≠ "" then
              -- Consume the marker before re-invoking the build
              let w4 := { w3 with cache := cacheDelete w3.cache (pendingBuildKey convID) }
              let buildReq : SendMessageRequest :=
                { publicKey := "", content := "", context := req.context,
                  selectedSuggestionID := some suggID, actionResult := none,
                  accessToken := req.accessToken }
              let br := buildPolicy cfg ext convID buildReq window w4
              match br.2 with
              | .error _ => (br.1, .ok plain)
              | .ok buildResp => (br.1, .ok { buildResp with message := assistantMsg })
            else (w3, .ok plain)
          | _ =>
            -- A missing marker (or, unreachably, a non-string blob under the
            -- pending key) skips the auto-continue.
            (w3, .ok plain)
        else (w3, .ok plain)

/-! ## Ordering predicates and operation sequences -/

/-- The message log is ordered by creation timestamp consistently with
insertion order. -/
def Chron (l : List Msg) : Prop :=
  l.Pairwise (fun a b => a.createdAt ≤ b.createdAt)

/-- The append-only log invariant of the data model: messages are strictly
ordered by creation timestamp. -/
def StrictChron (l : List Msg) : Prop :=
  l.Pairwise (fun a b => a.createdAt < b.createdAt)

instance (l : List Msg) : Decidable (Chron l) := by
  unfold Chron; infer_instance

instance (l : List Msg) : Decidable (StrictChron l) := by
  unfold StrictChron; infer_instance

/-- The summary invariant of the conversation record: every message at or
before the cursor has been folded into the summary. -/
def SummInv (w : World) : Prop :=
  ∀ c, w.cursor = some c → ∀ m ∈ w.msgs, m.createdAt ≤ c → m ∈ w.folded

instance (w : World) : Decidable (SummInv w) := by
  unfold SummInv; infer_instance

/-- An operation on one conversation's state: append a message (the turn
handlers' `msgRepo.Create`) or compute a window (`getConversationWindow`,
possibly summarizing with whatever the completion engine answers at that
moment). -/
inductive Op where
  | create (role content contentType : String)
  | window (ext : Externals)

def applyOp (cfg : Ctx) (w : World) : Op → World
  | .create role content contentType =>
    (createMessage w role content contentType none).1
  | .window ext => (getConversationWindow cfg ext w).1

def applyOps (cfg : Ctx) (w : World) (ops : List Op) : World :=
  ops.foldl (applyOp cfg) w

/-- Order on optional cursors: an absent cursor precedes everything; a set
cursor never becomes unset and never decreases. -/
def cursorLE : Option Nat → Option Nat → Prop
  | none, _ => True
  | some _, none => False
  | some a, some b => a ≤ b

/-! ## Concrete fixtures for counterexamples and witnesses -/

/-- A stub external world: every call fails. -/
def extStub : Externals :=
  { send := fun _ => none,
    isPluginInstalled := fun _ _ => none,
    getRecipeSchema := fun _ => none,
    getPolicySuggest := fun _ _ => none }

/-- An external world whose completion engine always answers the plain text
`"S"`. -/
def extText : Externals :=
  { extStub with
    send := fun _ => some ⟨[⟨"text", "S", "", ToolInput.badIn⟩]⟩ }

/-- Deployment configuration with `windowSize = 1`, `summarizeTrigger = 3`. -/
def cfgA : Ctx :=
  { windowSize := 1, summarizeTrigger := 3, summaryMaxTokens := 100,
    summaryModel := "haiku", hasVerifier := true, hasMemRepo := true }

/-- Deployment configuration with `windowSize = 1`, `summarizeTrigger = 2`. -/
def cfgB : Ctx :=
  { cfgA with summarizeTrigger := 2 }

def mA1 : Msg := { role := "user", content := "a", contentType := "text", meta := none, createdAt := 1 }
def mA2 : Msg := { role := "assistant", content := "b", contentType := "text", meta := none, createdAt := 2 }
def mA3 : Msg := { role := "user", content := "c", contentType := "text", meta := none, createdAt := 3 }

/-- A conversation whose cursor sits at `mA1` (already folded), with two
active messages — the cursor-exists branch with
`windowSize < active ≤ summarizeTrigger`. -/
def wA : World :=
  { msgs := [mA1, mA2, mA3], summary := some "s", cursor := some 1,
    cache := [], memories := [], folded := [mA1], now := 4 }

/-- A conversation with three messages and no cursor yet. -/
def wB : World :=
  { msgs := [mA1, mA2, mA3], summary := none, cursor := none,
    cache := [], memories := [], folded := [], now := 4 }

/-- The suggestion of the end-to-end install scenario. -/
def suggC : Suggestion :=
  { id := "sug_1", pluginID := "plugin-dca", title := "DCA", description := "dollar cost average" }

/-- A cache holding just `suggC` under its id. -/
def wC : World :=
  { msgs := [], summary := none, cursor := none,
    cache := [("sug_1", ⟨CacheVal.sugg suggC, suggestionTTL⟩)],
    memories := [], folded := [], now := 0 }

/-- Build-phase request selecting `suggC`. -/
def reqC1 : SendMessageRequest :=
  { publicKey := "pk", content := "", context := none,
    selectedSuggestionID := some "sug_1", actionResult := none,
    accessToken := "tok" }

/-- Confirm-phase request reporting a successful plugin install. -/
def reqC2 : SendMessageRequest :=
  { publicKey := "pk", content := "", context := none,
    selectedSuggestionID := none,
    actionResult := some { action := "install_plugin", success := true, error := "" },
    accessToken := "tok" }

/-- The confirm-tool response used by the fixtures. -/
def respConfirm : AnthResp :=
  ⟨[⟨"tool_use", "", "confirm_action", ToolInput.confirmIn "done" []⟩]⟩

/-- The build-policy tool response used by the fixtures. -/
def respPolicy : AnthResp :=
  ⟨[⟨"tool_use", "", "build_policy", ToolInput.policyIn [] "cfg ready"⟩]⟩

/-- Externals for the build phase of the install scenario: plugin not yet
installed. -/
def extC1 : Externals :=
  { send := fun _ => none,
    isPluginInstalled := fun _ _ => some false,
    getRecipeSchema := fun _ => none,
    getPolicySuggest := fun _ _ => none }

/-- Externals for the confirm phase: plugin now installed, engine answers
the confirm tool on plain requests and the policy tool on forced requests. -/
def extC2 : Externals :=
  { send := fun r =>
      if r.toolChoice = some "build_policy" then some respPolicy else some respConfirm,
    isPluginInstalled := fun _ _ => some true,
    getRecipeSchema := fun _ => some ("schema", ""),
    getPolicySuggest := fun _ _ => some "policy-suggest" }

/-- A world holding only a pending-build marker whose suggestion has
expired from the cache. -/
def wD : World :=
  { msgs := [], summary := none, cursor := none,
    cache := [(pendingBuildKey "conv1", ⟨CacheVal.str "sug_gone", suggestionTTL⟩)],
    memories := [], folded := [], now := 0 }

/-- An empty window fixture. -/
def winEmpty : Window := { messages := [], summary := none, total := 0 }

/-! # Helper lemmas -/

theorem cacheGet_set_self (c : Cache) (k : String) (v : CacheVal) (ttl : Nat) :
    cacheGet (cacheSet c k v ttl) k = some v := by
  simp [cacheGet, cacheSet]

theorem cacheGetEntry_set_self (c : Cache) (k : String) (v : CacheVal) (ttl : Nat) :
    cacheGetEntry (cacheSet c k v ttl) k = some ⟨v, ttl⟩ := by
  simp [cacheGetEntry, cacheSet]

theorem cacheGet_delete_other (c : Cache) (k k' : String) (h : k' ≠ k) :
    cacheGet (cacheDelete c k) k' = cacheGet c k' := by
  induction c with
  | nil => rfl
  | cons e rest ih =>
    by_cases he : e.1 = k
    · have he' : ¬ e.1 = k' := by rw [he]; exact Ne.symm h
      simp [cacheDelete, cacheGet, he, he', h, Ne.symm h, ih]
    · by_cases he' : e.1 = k'
      · simp [cacheDelete, cacheGet, he, he', h, Ne.symm h]
      · simp [cacheDelete, cacheGet, he, he', h, Ne.symm h, ih]

theorem cacheGet_set_other (c : Cache) (k k' : String) (v : CacheVal) (ttl : Nat)
    (h : k' ≠ k) : cacheGet (cacheSet c k v ttl) k' = cacheGet c k' := by
  have hne : ¬ k = k' := Ne.symm h
  simp [cacheGet, cacheSet, hne, cacheGet_delete_other c k k' h]

theorem cacheGet_delete_self (c : Cache) (k : String) :
    cacheGet (cacheDelete c k) k = none := by
  induction c with
  | nil => rfl
  | cons e rest ih =>
    by_cases he : e.1 = k
    · simp [cacheDelete, he, ih]
    · simp [cacheGet, cacheDelete, he, ih]

theorem cacheGet_delete_none (c : Cache) (k k' : String)
    (h : cacheGet c k' = none) : cacheGet (cacheDelete c k) k' = none := by
  by_cases hk : k' = k
  · rw [hk]; exact cacheGet_delete_self c k
  · rw [cacheGet_delete_other c k k' hk]; exact h

/-! # Claims about the pure helpers -/

/-- **C7.** `toBaseUnits "3.5" 6 = "3500000"`, `toBaseUnits "0.5" 18 =
"500000000000000000"`, `toBaseUnits "10" 0 = "10"`; and every input whose
concatenated whole-plus-padded-fraction digit string does not parse as an
integer (for example `"abc"`) is returned unchanged (the function is total,
so it never panics). -/
theorem toBaseUnits_spec :
    toBaseUnits "3.5" 6 = "3500000" ∧
    toBaseUnits "0.5" 18 = "500000000000000000" ∧
    toBaseUnits "10" 0 = "10" ∧
    toBaseUnits "abc" 6 = "abc" ∧
    ∀ (amount : String) (decimals : Nat),
      setStringBase10 (rawBaseUnitDigits amount decimals) = none →
      toBaseUnits amount decimals = amount := by
  refine ⟨by decide, by decide, by decide, by decide, ?_⟩
  intro amount decimals h
  simp [toBaseUnits, h]

theorem toBaseUnits_spec_witness :
    setStringBase10 (rawBaseUnitDigits "1.2.3" 6) = none ∧
    toBaseUnits "1.2.3" 6 = "1.2.3" :=
  ⟨by decide, toBaseUnits_spec.2.2.2.2 "1.2.3" 6 (by decide)⟩

/-- **C8 counterexample.** `truncateTitle` does *not* return every
40-character input unchanged: an input of 40 multi-byte characters
(120 bytes) is truncated. -/
theorem truncateTitle_char_counterexample :
    utf8CharCount fortyEuros = 40 ∧ truncateTitle fortyEuros ≠ fortyEuros := by
  exact ⟨by decide, by decide⟩

/-- **C8 (amended).** `truncateTitle` measures length in bytes: any
40-*byte* input is returned unchanged, a 60-*byte* input becomes its first
47 bytes plus `"..."` (50 bytes); in general every input of at most 50
bytes is returned verbatim and every longer input is truncated to its first
47 bytes plus the ellipsis suffix. -/
theorem truncateTitle_byte_spec :
    truncateTitle (List.replicate 40 65) = List.replicate 40 (65 : UInt8) ∧
    truncateTitle (List.replicate 60 65) =
      (List.replicate 60 (65 : UInt8)).take 47 ++ ellipsisBytes ∧
    (∀ s : List UInt8, s.length ≤ 50 → truncateTitle s = s) ∧
    (∀ s : List UInt8, 50 < s.length →
      truncateTitle s = s.take 47 ++ ellipsisBytes ∧
      (truncateTitle s).length = 50) := by
  refine ⟨by decide, by decide, ?_, ?_⟩
  · intro s h
    have h50 : s.length ≤ 50 := h
    simp [truncateTitle, titleMaxLen, h50]
  · intro s h
    have h' : ¬ s.length ≤ 50 := by omega
    constructor
    · simp [truncateTitle, titleMaxLen, h']
    · simp [truncateTitle, titleMaxLen, h', ellipsisBytes]
      omega

theorem truncateTitle_byte_spec_witness :
    (List.replicate 40 (65 : UInt8)).length ≤ 50 ∧
    truncateTitle (List.replicate 40 65) = List.replicate 40 (65 : UInt8) :=
  ⟨by decide, (truncateTitle_byte_spec.2.2.1 (List.replicate 40 65) (by decide))⟩

/-- **C9.** `truncateTitle` measures in bytes, not characters: every result
is at most 50 bytes, every input longer than 50 bytes is cut at exactly 47
bytes before the `"..."` suffix, and a multi-byte UTF-8 input of at most 50
characters can be split in the middle of a character (byte 47 of the
40-character euro string is a continuation byte). -/
theorem truncateTitle_byte_semantics :
    (∀ s : List UInt8, (truncateTitle s).length ≤ 50) ∧
    (∀ s : List UInt8, 50 < s.length → truncateTitle s = s.take 47 ++ ellipsisBytes) ∧
    utf8CharCount fortyEuros ≤ 50 ∧
    truncateTitle fortyEuros = fortyEuros.take 47 ++ ellipsisBytes ∧
    isUtf8ContinuationByte (fortyEuros.getD 47 0) = true := by
  refine ⟨?_, ?_, by decide, by decide, by decide⟩
  · intro s
    by_cases h : s.length ≤ 50
    · rw [truncateTitle, if_pos (by simpa [titleMaxLen] using h)]
      exact h
    · simp [truncateTitle, titleMaxLen, h, ellipsisBytes]
  · intro s h
    have h' : ¬ s.length ≤ 50 := by omega
    simp [truncateTitle, titleMaxLen, h']

theorem truncateTitle_byte_semantics_witness :
    50 < (List.replicate 60 (65 : UInt8)).length ∧
    truncateTitle (List.replicate 60 65) =
      (List.replicate 60 (65 : UInt8)).take 47 ++ ellipsisBytes :=
  ⟨by decide, (truncateTitle_byte_semantics.2.1 (List.replicate 60 65) (by decide))⟩

/-! # Shape lemmas for the summarizer -/

theorem summarizeOldMessages_success (cfg : Ctx) (ext : Externals) (w : World)
    (allMsgs : List Msg) (hlen : ¬ allMsgs.length ≤ cfg.windowSize)
    (hok : (summarizeOldMessages cfg ext w allMsgs).2 = true) :
    ∃ text,
      (summarizeOldMessages cfg ext w allMsgs).1 =
        { w with
          summary := some text,
          cursor := some
            (((allMsgs.take (allMsgs.length - cfg.windowSize)).getLastD defaultMsg).createdAt),
          folded := w.folded ++ allMsgs.take (allMsgs.length - cfg.windowSize) } := by
  cases hsend : ext.send (summarizationRequest cfg w.summary
      (allMsgs.take (allMsgs.length - cfg.windowSize))) with
  | none => simp [summarizeOldMessages, hlen, hsend] at hok
  | some resp =>
    by_cases htext : extractFirstText resp = ""
    · simp [summarizeOldMessages, hlen, hsend, htext] at hok
    · exact ⟨extractFirstText resp, by
        simp [summarizeOldMessages, hlen, hsend, htext, updateSummaryWithCursor]⟩

theorem summarizeOldMessages_failure (cfg : Ctx) (ext : Externals) (w : World)
    (allMsgs : List Msg)
    (hfail : (summarizeOldMessages cfg ext w allMsgs).2 = false) :
    (summarizeOldMessages cfg ext w allMsgs).1 = w := by
  by_cases hlen : allMsgs.length ≤ cfg.windowSize
  · simp [summarizeOldMessages, hlen] at hfail
  · cases hsend : ext.send (summarizationRequest cfg w.summary
        (allMsgs.take (allMsgs.length - cfg.windowSize))) with
    | none => simp [summarizeOldMessages, hlen, hsend]
    | some resp =>
      by_cases htext : extractFirstText resp = ""
      · simp [summarizeOldMessages, hlen, hsend, htext]
      · simp [summarizeOldMessages, hlen, hsend, htext] at hfail

/-! # List lemmas about chronologically ordered logs -/

theorem getLastD_take (l : List Msg) (k : Nat) (d : Msg) (h1 : 0 < k)
    (h2 : k ≤ l.length) :
    (l.take k).getLastD d = l.get ⟨k - 1, by omega⟩ := by
  induction l generalizing k d with
  | nil => simp at h2; omega
  | cons a rest ih =>
    match k, h1 with
    | 1, _ =>
      cases rest <;> simp [List.take]
    | (j+2), _ =>
      have h2' : j + 1 ≤ rest.length := by simpa using h2
      have hne : rest.take (j+1) ≠ [] := by
        have : (rest.take (j+1)).length = j + 1 := by
          rw [List.length_take]; omega
        intro hnil; rw [hnil] at this; simp at this
      calc ((a :: rest).take (j+2)).getLastD d
          = (a :: rest.take (j+1)).getLastD d := by simp [List.take]
        _ = (rest.take (j+1)).getLastD a := by rw [List.getLastD_cons]
        _ = rest.get ⟨j, by omega⟩ := ih (j+1) a (by omega) h2'
        _ = (a :: rest).get ⟨j+1, by simp; omega⟩ := rfl

theorem msgsSince_get_strict (l : List Msg) (hs : StrictChron l) (k : Nat)
    (hk : k < l.length) :
    msgsSince l (l.get ⟨k, hk⟩).createdAt = l.drop (k + 1) := by
  induction l generalizing k with
  | nil => simp at hk
  | cons a rest ih =>
    rcases List.pairwise_cons.mp hs with ⟨hhead, htail⟩
    match k with
    | 0 =>
      have hget : (a :: rest).get ⟨0, hk⟩ = a := rfl
      rw [hget]
      show List.filter _ (a :: rest) = _
      rw [List.filter_cons]
      rw [if_neg (by simp)]
      have hall : ∀ m ∈ rest, (decide (a.createdAt < m.createdAt)) = true := by
        intro m hm; simpa using hhead m hm
      rw [List.filter_eq_self.mpr hall]
      simp
    | (j+1) =>
      have hkr : j < rest.length := by simpa using hk
      have hpiv : (a :: rest).get ⟨j+1, hk⟩ = rest.get ⟨j, hkr⟩ := rfl
      have hmem : rest.get ⟨j, hkr⟩ ∈ rest := List.get_mem rest j hkr
      have hlt : a.createdAt < (rest.get ⟨j, hkr⟩).createdAt := hhead _ hmem
      rw [hpiv]
      show List.filter _ (a :: rest) = _
      rw [List.filter_cons]
      rw [if_neg (by simp only [decide_eq_true_eq]; omega)]
      have hrec := ih htail j hkr
      simp only [msgsSince] at hrec
      rw [hrec]
      simp

/-- With a strictly ordered log, the messages with `created_at` at most the
`k`-th timestamp are exactly the first `k+1` messages. -/
theorem msgsSince_get_count (l : List Msg) (hs : StrictChron l) (k : Nat)
    (hk : k < l.length) :
    (msgsSince l (l.get ⟨k, hk⟩).createdAt).length = l.length - (k + 1) := by
  rw [msgsSince_get_strict l hs k hk, List.length_drop]

/-! # Branch equations for `getConversationWindow` -/

theorem gcw_cursor_low (cfg : Ctx) (ext : Externals) (w : World) (c : Nat)
    (hc : w.cursor = some c) (hle : countSince w c ≤ cfg.windowSize) :
    getConversationWindow cfg ext w
      = (w, ⟨getSince w c, w.summary, countSince w c⟩) := by
  simp [getConversationWindow, hc, hle]

theorem gcw_cursor_mid (cfg : Ctx) (ext : Externals) (w : World) (c : Nat)
    (hc : w.cursor = some c) (hgt : ¬ countSince w c ≤ cfg.windowSize)
    (hmid : ¬ cfg.summarizeTrigger < countSince w c) :
    getConversationWindow cfg ext w
      = (w, ⟨getRecentSince w c cfg.windowSize, w.summary, countSince w c⟩) := by
  simp [getConversationWindow, hc, hgt, hmid]

theorem gcw_cursor_high (cfg : Ctx) (ext : Externals) (w : World) (c c2 : Nat)
    (hc : w.cursor = some c) (hgt : ¬ countSince w c ≤ cfg.windowSize)
    (hhi : cfg.summarizeTrigger < countSince w c)
    (hc2 : (summarizeOldMessages cfg ext w (getSince w c)).1.cursor = some c2) :
    getConversationWindow cfg ext w
      = ((summarizeOldMessages cfg ext w (getSince w c)).1,
         ⟨getRecentSince (summarizeOldMessages cfg ext w (getSince w c)).1 c2 cfg.windowSize,
          (summarizeOldMessages cfg ext w (getSince w c)).1.summary,
          (getRecentSince (summarizeOldMessages cfg ext w (getSince w c)).1 c2 cfg.windowSize).length⟩) := by
  simp [getConversationWindow, hc, hgt, hhi, hc2]

theorem gcw_cursor_high_fail (cfg : Ctx) (ext : Externals) (w : World) (c : Nat)
    (hc : w.cursor = some c) (hgt : ¬ countSince w c ≤ cfg.windowSize)
    (hhi : cfg.summarizeTrigger < countSince w c)
    (hfl : (summarizeOldMessages cfg ext w (getSince w c)).2 = false) :
    getConversationWindow cfg ext w
      = (w, ⟨getRecentSince w c cfg.windowSize, w.summary,
             (getRecentSince w c cfg.windowSize).length⟩) := by
  have hw := summarizeOldMessages_failure cfg ext w (getSince w c) hfl
  simp [getConversationWindow, hc, hgt, hhi, hw]

theorem gcw_nocursor_low (cfg : Ctx) (ext : Externals) (w : World)
    (hc : w.cursor = none) (hle : w.msgs.length ≤ cfg.windowSize) :
    getConversationWindow cfg ext w = (w, ⟨w.msgs, none, w.msgs.length⟩) := by
  simp [getConversationWindow, hc, countByConversationID, getByConversationID, hle]

theorem gcw_nocursor_mid (cfg : Ctx) (ext : Externals) (w : World)
    (hc : w.cursor = none) (hgt : ¬ w.msgs.length ≤ cfg.windowSize)
    (hmid : ¬ cfg.summarizeTrigger < w.msgs.length) :
    getConversationWindow cfg ext w = (w, ⟨w.msgs, none, w.msgs.length⟩) := by
  simp [getConversationWindow, hc, countByConversationID, getByConversationID, hgt, hmid]

theorem gcw_nocursor_high_fail (cfg : Ctx) (ext : Externals) (w : World)
    (hc : w.cursor = none) (hgt : ¬ w.msgs.length ≤ cfg.windowSize)
    (hhi : cfg.summarizeTrigger < w.msgs.length)
    (hfl : (summarizeOldMessages cfg ext w w.msgs).2 = false) :
    getConversationWindow cfg ext w = (w, ⟨w.msgs, none, w.msgs.length⟩) := by
  have hw := summarizeOldMessages_failure cfg ext w w.msgs hfl
  simp [getConversationWindow, hc, countByConversationID, getByConversationID,
    hgt, hhi, hfl, hw]

theorem gcw_nocursor_high_success (cfg : Ctx) (ext : Externals) (w : World)
    (c2 : Nat) (hc : w.cursor = none) (hgt : ¬ w.msgs.length ≤ cfg.windowSize)
    (hhi : cfg.summarizeTrigger < w.msgs.length)
    (hok : (summarizeOldMessages cfg ext w w.msgs).2 = true)
    (hc2 : (summarizeOldMessages cfg ext w w.msgs).1.cursor = some c2) :
    getConversationWindow cfg ext w
      = ((summarizeOldMessages cfg ext w w.msgs).1,
         ⟨getRecentSince (summarizeOldMessages cfg ext w w.msgs).1 c2 cfg.windowSize,
          (summarizeOldMessages cfg ext w w.msgs).1.summary,
          (getRecentSince (summarizeOldMessages cfg ext w w.msgs).1 c2 cfg.windowSize).length⟩) := by
  simp [getConversationWindow, hc, countByConversationID, getByConversationID,
    hgt, hhi, hok, hc2]

/-! # Membership and recent-window lemmas -/

theorem mem_msgsSince (l : List Msg) (t : Nat) (m : Msg) :
    m ∈ msgsSince l t ↔ m ∈ l ∧ t < m.createdAt := by
  simp [msgsSince, List.mem_filter]

theorem getRecentSince_all (w : World) (t limit : Nat)
    (h : (msgsSince w.msgs t).length ≤ limit) :
    getRecentSince w t limit = msgsSince w.msgs t := by
  unfold getRecentSince
  rw [List.take_of_length_le (by simpa using h), List.reverse_reverse]

theorem msgsSince_msgsSince (l : List Msg) (c c2 : Nat) (h : c ≤ c2) :
    msgsSince (msgsSince l c) c2 = msgsSince l c2 := by
  induction l with
  | nil => rfl
  | cons a rest ih =>
    by_cases h2 : c2 < a.createdAt
    · have h1 : c < a.createdAt := by omega
      simp [msgsSince, List.filter_cons, h1, h2] at ih ⊢
      simpa [msgsSince] using ih
    · by_cases h1 : c < a.createdAt
      · simp [msgsSince, List.filter_cons, h1, h2] at ih ⊢
        simpa [msgsSince] using ih
      · simp [msgsSince, List.filter_cons, h1, h2] at ih ⊢
        simpa [msgsSince] using ih

/-! # Claims about the summarization cursor -/

/-- **C2.** For a conversation with `n` strictly ordered messages,
`n > windowSize`, a successful `summarizeOldMessages` over the full log
stores as cursor exactly the creation timestamp of the `(n - windowSize)`-th
message — the last message of the summarized old prefix — and `CountSince`
at that cursor (strictly-greater comparison) returns exactly `windowSize`. -/
theorem summarizeOldMessages_cursor_exact
    (cfg : Ctx) (ext : Externals) (w : World)
    (hsort : StrictChron w.msgs)
    (hlen : cfg.windowSize < w.msgs.length)
    (hok : (summarizeOldMessages cfg ext w w.msgs).2 = true) :
    (summarizeOldMessages cfg ext w w.msgs).1.cursor =
      some ((w.msgs.getD (w.msgs.length - cfg.windowSize - 1) defaultMsg).createdAt) ∧
    countSince (summarizeOldMessages cfg ext w w.msgs).1
      ((w.msgs.getD (w.msgs.length - cfg.windowSize - 1) defaultMsg).createdAt)
      = cfg.windowSize := by
  obtain ⟨text, hshape⟩ :=
    summarizeOldMessages_success cfg ext w w.msgs (by omega) hok
  have hkk : w.msgs.length - cfg.windowSize - 1 < w.msgs.length := by omega
  have hlast : (w.msgs.take (w.msgs.length - cfg.windowSize)).getLastD defaultMsg
      = w.msgs.get ⟨w.msgs.length - cfg.windowSize - 1, hkk⟩ :=
    getLastD_take w.msgs (w.msgs.length - cfg.windowSize) defaultMsg (by omega) (by omega)
  have hgetD : w.msgs.getD (w.msgs.length - cfg.windowSize - 1) defaultMsg
      = w.msgs.get ⟨w.msgs.length - cfg.windowSize - 1, hkk⟩ :=
    List.getD_eq_getElem w.msgs defaultMsg hkk
  constructor
  · rw [hshape, hgetD]
    show some (((w.msgs.take (w.msgs.length - cfg.windowSize)).getLastD defaultMsg).createdAt) = _
    rw [hlast]
  · rw [hshape]
    show (msgsSince w.msgs _).length = _
    rw [hgetD]
    rw [msgsSince_get_count w.msgs hsort (w.msgs.length - cfg.windowSize - 1) hkk]
    omega

/-! # Idempotence of the window computation -/

/-- **C3.** With no intervening writes, calling `getConversationWindow`
twice yields identical windows (same messages, same summary text, same
count) and an identical state: in particular, when the first call performed
a summarization, the second call performs none (its active count now fits
in the window) and re-reads the same view. -/
theorem getConversationWindow_idempotent
    (cfg : Ctx) (ext : Externals) (w : World)
    (hsort : StrictChron w.msgs) :
    getConversationWindow cfg ext (getConversationWindow cfg ext w).1
      = getConversationWindow cfg ext w := by
  cases hc : w.cursor with
  | none =>
    by_cases hle : w.msgs.length ≤ cfg.windowSize
    · have h1 := gcw_nocursor_low cfg ext w hc hle
      have heq1 : (getConversationWindow cfg ext w).1 = w := by rw [h1]
      rw [heq1]
    · by_cases hhi : cfg.summarizeTrigger < w.msgs.length
      · cases hr2 : (summarizeOldMessages cfg ext w w.msgs).2 with
        | false =>
          have h1 := gcw_nocursor_high_fail cfg ext w hc hle hhi hr2
          have heq1 : (getConversationWindow cfg ext w).1 = w := by rw [h1]
          rw [heq1]
        | true =>
          obtain ⟨text, hshape⟩ :=
            summarizeOldMessages_success cfg ext w w.msgs hle hr2
          have hkk : w.msgs.length - cfg.windowSize - 1 < w.msgs.length := by
            simp at hle; omega
          have hlast : (w.msgs.take (w.msgs.length - cfg.windowSize)).getLastD defaultMsg
              = w.msgs.get ⟨w.msgs.length - cfg.windowSize - 1, hkk⟩ :=
            getLastD_take w.msgs (w.msgs.length - cfg.windowSize) defaultMsg
              (by simp at hle; omega) (by omega)
          set piv := w.msgs.get ⟨w.msgs.length - cfg.windowSize - 1, hkk⟩ with hpivdef
          have hc2 : (summarizeOldMessages cfg ext w w.msgs).1.cursor
              = some piv.createdAt := by rw [hshape, hlast]
          have h1 := gcw_nocursor_high_success cfg ext w piv.createdAt hc hle hhi hr2 hc2
          have hmsgs1 : (summarizeOldMessages cfg ext w w.msgs).1.msgs = w.msgs := by
            rw [hshape]
          have hsince : msgsSince w.msgs piv.createdAt
              = w.msgs.drop (w.msgs.length - cfg.windowSize) := by
            have := msgsSince_get_strict w.msgs hsort
              (w.msgs.length - cfg.windowSize - 1) hkk
            rw [this]
            congr 1
            simp at hle; omega
          have hlen : (msgsSince w.msgs piv.createdAt).length ≤ cfg.windowSize := by
            rw [hsince, List.length_drop]; omega
          have hcount : countSince (summarizeOldMessages cfg ext w w.msgs).1 piv.createdAt
              = (msgsSince w.msgs piv.createdAt).length := by
            unfold countSince
            rw [hmsgs1]
          have hgs : getSince (summarizeOldMessages cfg ext w w.msgs).1 piv.createdAt
              = msgsSince w.msgs piv.createdAt := by
            unfold getSince
            rw [hmsgs1]
          have hwin : getRecentSince (summarizeOldMessages cfg ext w w.msgs).1
              piv.createdAt cfg.windowSize = msgsSince w.msgs piv.createdAt := by
            unfold getRecentSince
            rw [hmsgs1]
            rw [List.take_of_length_le (by simpa using hlen), List.reverse_reverse]
          have heq1 : (getConversationWindow cfg ext w).1
              = (summarizeOldMessages cfg ext w w.msgs).1 := by rw [h1]
          rw [heq1]
          have h2 := gcw_cursor_low cfg ext (summarizeOldMessages cfg ext w w.msgs).1
            piv.createdAt hc2 (by rw [hcount]; exact hlen)
          have hmsgseq : getSince (summarizeOldMessages cfg ext w w.msgs).1 piv.createdAt
              = getRecentSince (summarizeOldMessages cfg ext w w.msgs).1
                  piv.createdAt cfg.windowSize := by
            rw [hgs, hwin]
          have hcnteq : countSince (summarizeOldMessages cfg ext w w.msgs).1 piv.createdAt
              = (getRecentSince (summarizeOldMessages cfg ext w w.msgs).1
                  piv.createdAt cfg.windowSize).length := by
            rw [hcount, hwin]
          rw [h2, h1, hmsgseq, hcnteq]
      · have h1 := gcw_nocursor_mid cfg ext w hc hle hhi
        have heq1 : (getConversationWindow cfg ext w).1 = w := by rw [h1]
        rw [heq1]
  | some c =>
    by_cases hA : countSince w c ≤ cfg.windowSize
    · have h1 := gcw_cursor_low cfg ext w c hc hA
      have heq1 : (getConversationWindow cfg ext w).1 = w := by rw [h1]
      rw [heq1]
    · by_cases hhi : cfg.summarizeTrigger < countSince w c
      · cases hr2 : (summarizeOldMessages cfg ext w (getSince w c)).2 with
        | false =>
          have h1 := gcw_cursor_high_fail cfg ext w c hc hA hhi hr2
          have heq1 : (getConversationWindow cfg ext w).1 = w := by rw [h1]
          rw [heq1]
        | true =>
          have hlenAS : ¬ (getSince w c).length ≤ cfg.windowSize := by
            simpa [getSince, countSince] using hA
          obtain ⟨text, hshape⟩ :=
            summarizeOldMessages_success cfg ext w (getSince w c) hlenAS hr2
          have hsortAS : StrictChron (getSince w c) :=
            List.Pairwise.filter _ hsort
          have hkk : (getSince w c).length - cfg.windowSize - 1 < (getSince w c).length := by
            simp at hlenAS; omega
          have hlast : ((getSince w c).take ((getSince w c).length - cfg.windowSize)).getLastD defaultMsg
              = (getSince w c).get ⟨(getSince w c).length - cfg.windowSize - 1, hkk⟩ :=
            getLastD_take (getSince w c) ((getSince w c).length - cfg.windowSize)
              defaultMsg (by simp at hlenAS; omega) (by omega)
          set piv := (getSince w c).get ⟨(getSince w c).length - cfg.windowSize - 1, hkk⟩
            with hpivdef
          have hc2 : (summarizeOldMessages cfg ext w (getSince w c)).1.cursor
              = some piv.createdAt := by rw [hshape, hlast]
          have h1 := gcw_cursor_high cfg ext w c piv.createdAt hc hA hhi hc2
          have hmsgs1 : (summarizeOldMessages cfg ext w (getSince w c)).1.msgs = w.msgs := by
            rw [hshape]
          have hpmem : piv ∈ getSince w c := List.get_mem _ _ _
          have hcpiv : c < piv.createdAt := ((mem_msgsSince w.msgs c piv).mp hpmem).2
          have hsinceAS : msgsSince (getSince w c) piv.createdAt
              = (getSince w c).drop ((getSince w c).length - cfg.windowSize) := by
            have := msgsSince_get_strict (getSince w c) hsortAS
              ((getSince w c).length - cfg.windowSize - 1) hkk
            rw [this]
            congr 1
            simp at hlenAS; omega
          have hsince : msgsSince w.msgs piv.createdAt
              = (getSince w c).drop ((getSince w c).length - cfg.windowSize) := by
            rw [← msgsSince_msgsSince w.msgs c piv.createdAt (by omega)]
            exact hsinceAS
          have hlen : (msgsSince w.msgs piv.createdAt).length ≤ cfg.windowSize := by
            rw [hsince, List.length_drop]; omega
          have hcount : countSince (summarizeOldMessages cfg ext w (getSince w c)).1 piv.createdAt
              = (msgsSince w.msgs piv.createdAt).length := by
            show (msgsSince (summarizeOldMessages cfg ext w (getSince w c)).1.msgs
              piv.createdAt).length = _
            rw [hmsgs1]
          have hgs : getSince (summarizeOldMessages cfg ext w (getSince w c)).1 piv.createdAt
              = msgsSince w.msgs piv.createdAt := by
            show msgsSince (summarizeOldMessages cfg ext w (getSince w c)).1.msgs
              piv.createdAt = _
            rw [hmsgs1]
          have hwin : getRecentSince (summarizeOldMessages cfg ext w (getSince w c)).1
              piv.createdAt cfg.windowSize = msgsSince w.msgs piv.createdAt := by
            show ((msgsSince (summarizeOldMessages cfg ext w (getSince w c)).1.msgs
              piv.createdAt).reverse.take cfg.windowSize).reverse = _
            rw [hmsgs1]
            rw [List.take_of_length_le (by simpa using hlen), List.reverse_reverse]
          have heq1 : (getConversationWindow cfg ext w).1
              = (summarizeOldMessages cfg ext w (getSince w c)).1 := by rw [h1]
          rw [heq1]
          have h2 := gcw_cursor_low cfg ext (summarizeOldMessages cfg ext w (getSince w c)).1
            piv.createdAt hc2 (by rw [hcount]; exact hlen)
          have hmsgseq : getSince (summarizeOldMessages cfg ext w (getSince w c)).1 piv.createdAt
              = getRecentSince (summarizeOldMessages cfg ext w (getSince w c)).1
                  piv.createdAt cfg.windowSize := by
            rw [hgs, hwin]
          have hcnteq : countSince (summarizeOldMessages cfg ext w (getSince w c)).1 piv.createdAt
              = (getRecentSince (summarizeOldMessages cfg ext w (getSince w c)).1
                  piv.createdAt cfg.windowSize).length := by
            rw [hcount, hwin]
          rw [h2, h1, hmsgseq, hcnteq]
      · have h1 := gcw_cursor_mid cfg ext w c hc hA hhi
        have heq1 : (getConversationWindow cfg ext w).1 = w := by rw [h1]
        rw [heq1]

theorem getConversationWindow_idempotent_witness :
    StrictChron wB.msgs ∧
    getConversationWindow cfgB extText (getConversationWindow cfgB extText wB).1
      = getConversationWindow cfgB extText wB :=
  ⟨by decide, getConversationWindow_idempotent cfgB extText wB (by decide)⟩

/-! # Install-required / pending-build marker claims -/

/-- **C6.** A Build request whose suggestion's plugin is not installed
returns an install-required payload and stores a pending-build marker
(conversation id → suggestion id) with the one-hour TTL; a subsequent
Confirm request reporting `install_plugin` success while the marker is
present deletes the marker and transparently re-invokes the Build branch
with that suggestion id, returning its policy-ready payload. -/
theorem installRequired_then_confirm_autocontinue
    (cfg : Ctx) (ext1 ext2 : Externals) (convID : String)
    (req1 req2 : SendMessageRequest) (window : Window) (w : World)
    (sugg : Suggestion) (ar : ActionResult)
    (respC : AnthResp) (cresp : ConfirmResponse)
    (respP : AnthResp) (pcfg : List (String × JVal)) (pexpl : String)
    (schema : String × String) (ps : String)
    (h1 : req1.selectedSuggestionID = some sugg.id)
    (h2 : cacheGet w.cache sugg.id = some (CacheVal.sugg sugg))
    (h3 : cfg.hasVerifier = true)
    (h4 : req1.accessToken ≠ "")
    (h5 : ext1.isPluginInstalled req1.accessToken sugg.pluginID = some false)
    (h6 : req2.actionResult = some ar)
    (h7 : ar.action = "install_plugin") (h8 : ar.success = true)
    (h9 : sugg.id ≠ "") (h10 : sugg.id ≠ pendingBuildKey convID)
    (h11 : ∀ r : AnthReq, r.toolChoice = none → ext2.send r = some respC)
    (h12 : parseConfirmResponseWithMemory respC = .ok (cresp, none))
    (h13 : (if req2.accessToken ≠ "" then
             ext2.isPluginInstalled req2.accessToken sugg.pluginID
           else none) ≠ some false)
    (h14 : ext2.getRecipeSchema sugg.pluginID = some schema)
    (h15 : ∀ r : AnthReq, r.toolChoice = some "build_policy" → ext2.send r = some respP)
    (h16 : parsePolicyResponse respP = .ok (pcfg, pexpl))
    (h17 : ext2.getPolicySuggest sugg.pluginID
      (convertAmountToBaseUnits pcfg (reqBalances req2)) = some ps) :
    (∃ r1, (buildPolicy cfg ext1 convID req1 window w).2 = .ok r1 ∧
      r1.installRequired = some ⟨sugg.pluginID, sugg.title,
        "Install " ++ sugg.title ++ " to set up your automation"⟩ ∧
      r1.policyReady = none) ∧
    cacheGetEntry (buildPolicy cfg ext1 convID req1 window w).1.cache
      (pendingBuildKey convID) = some ⟨CacheVal.str sugg.id, suggestionTTL⟩ ∧
    (∃ r2, (confirmAction cfg ext2 convID req2 window
        (buildPolicy cfg ext1 convID req1 window w).1).2 = .ok r2 ∧
      r2.policyReady = some ⟨sugg.pluginID,
        convertAmountToBaseUnits pcfg (reqBalances req2), ps⟩ ∧
      r2.message.content = cresp.response) ∧
    cacheGet (confirmAction cfg ext2 convID req2 window
        (buildPolicy cfg ext1 convID req1 window w).1).1.cache
      (pendingBuildKey convID) = none := by
  -- Phase 1: the Build branch short-circuits into handleInstallRequired.
  have hb : buildPolicy cfg ext1 convID req1 window w
      = handleInstallRequired convID sugg w := by
    simp [buildPolicy, h1, h2, h3, h4, h5]
  -- Engine facts in the form simp can apply directly.
  have hsendC : ∀ (w' : World) (pk' : String),
      ext2.send (confirmAnthReq cfg w' pk' ar window) = some respC :=
    fun w' pk' => h11 _ rfl
  have hsendP : ∀ (w' : World) (req' : SendMessageRequest),
      ext2.send (buildPolicyAnthReq cfg w' req' window sugg schema.1 schema.2)
        = some respP :=
    fun w' req' => h15 _ rfl
  have hbal : ∀ sid' : Option String, reqBalances
      { publicKey := "", content := "", context := req2.context,
        selectedSuggestionID := sid', actionResult := none,
        accessToken := req2.accessToken } = reqBalances req2 := fun _ => rfl
  have hdel : ∀ c : Cache,
      cacheGet (cacheDelete c (pendingBuildKey convID)) (pendingBuildKey convID) = none :=
    fun c => cacheGet_delete_self c _
  have h13' : ¬ (¬ req2.accessToken = "" ∧
      ext2.isPluginInstalled req2.accessToken sugg.pluginID = some false) := by
    rintro ⟨ha, hfalse⟩
    apply h13
    rw [if_pos ha]
    exact hfalse
  refine ⟨?_, ?_, ?_, ?_⟩
  · rw [hb]
    exact ⟨_, rfl, rfl, rfl⟩
  · rw [hb]
    exact cacheGetEntry_set_self _ _ _ _
  · rw [hb]
    simp [confirmAction, h6, h7, h8, hsendC, h12, handleInstallRequired,
      createMessage, cacheGet_set_self, h9, buildPolicy, cacheGet_delete_other,
      cacheGet_set_other, h10, h2, h3, h13', h14, hsendP, h16, hbal, h17]
  · rw [hb]
    simp [confirmAction, h6, h7, h8, hsendC, h12, handleInstallRequired,
      createMessage, cacheGet_set_self, h9, buildPolicy, cacheGet_delete_other,
      cacheGet_set_other, h10, h2, h3, h13', h14, hsendP, h16, hbal, h17, hdel]

theorem installRequired_then_confirm_autocontinue_witness :
    cacheGet wC.cache suggC.id = some (CacheVal.sugg suggC) ∧
    ((∃ r1, (buildPolicy cfgA extC1 "conv1" reqC1 winEmpty wC).2 = .ok r1 ∧
        r1.installRequired = some ⟨suggC.pluginID, suggC.title,
          "Install " ++ suggC.title ++ " to set up your automation"⟩ ∧
        r1.policyReady = none) ∧
      cacheGetEntry (buildPolicy cfgA extC1 "conv1" reqC1 winEmpty wC).1.cache
        (pendingBuildKey "conv1") = some ⟨CacheVal.str suggC.id, suggestionTTL⟩ ∧
      (∃ r2, (confirmAction cfgA extC2 "conv1" reqC2 winEmpty
          (buildPolicy cfgA extC1 "conv1" reqC1 winEmpty wC).1).2 = .ok r2 ∧
        r2.policyReady = some ⟨suggC.pluginID,
          convertAmountToBaseUnits [] (reqBalances reqC2), "policy-suggest"⟩ ∧
        r2.message.content = "done") ∧
      cacheGet (confirmAction cfgA extC2 "conv1" reqC2 winEmpty
          (buildPolicy cfgA extC1 "conv1" reqC1 winEmpty wC).1).1.cache
        (pendingBuildKey "conv1") = none) :=
  ⟨by decide,
   installRequired_then_confirm_autocontinue cfgA extC1 extC2 "conv1" reqC1 reqC2
     winEmpty wC suggC ⟨"install_plugin", true, ""⟩ respConfirm ⟨"done", []⟩
     respPolicy [] "cfg ready" ("schema", "") "policy-suggest"
     rfl (by decide) rfl (by decide) rfl rfl rfl rfl (by decide) (by decide)
     (fun r hr => by simp [extC2, hr]) rfl
     (by simp [extC2]) rfl (fun r hr => by simp [extC2, hr]) rfl rfl⟩

/-- **C10.** (implicit) In the Confirm branch's auto-continue the
pending-build marker is deleted from the cache *before* the Build branch is
re-invoked, so the marker is consumed at most once even when the re-invoked
build fails; in that failure case the turn still returns the plain
confirmation message without error, and a later successful-install
confirmation for the conversation does not retry the build. -/
theorem pending_marker_consumed_once
    (cfg : Ctx) (ext : Externals) (convID : String)
    (req : SendMessageRequest) (window : Window) (w : World)
    (ar : ActionResult) (respC : AnthResp) (cresp : ConfirmResponse) (sid : String)
    (h6 : req.actionResult = some ar)
    (h7 : ar.action = "install_plugin") (h8 : ar.success = true)
    (hmk : cacheGet w.cache (pendingBuildKey convID) = some (CacheVal.str sid))
    (h9 : sid ≠ "")
    (hnosugg : cacheGet w.cache sid = none)
    (h11 : ∀ r : AnthReq, r.toolChoice = none → ext.send r = some respC)
    (h12 : parseConfirmResponseWithMemory respC = .ok (cresp, none)) :
    (∃ r2, (confirmAction cfg ext convID req window w).2 = .ok r2 ∧
      r2.policyReady = none ∧ r2.installRequired = none ∧
      r2.message.content = cresp.response) ∧
    cacheGet (confirmAction cfg ext convID req window w).1.cache
      (pendingBuildKey convID) = none ∧
    (∃ r3, (confirmAction cfg ext convID req window
        (confirmAction cfg ext convID req window w).1).2 = .ok r3 ∧
      r3.policyReady = none ∧ r3.installRequired = none) := by
  have hsendC : ∀ (w' : World) (pk' : String),
      ext.send (confirmAnthReq cfg w' pk' ar window) = some respC :=
    fun w' pk' => h11 _ rfl
  have hn : cacheGet (cacheDelete w.cache (pendingBuildKey convID)) sid = none :=
    cacheGet_delete_none _ _ _ hnosugg
  have hdel : cacheGet (cacheDelete w.cache (pendingBuildKey convID))
      (pendingBuildKey convID) = none :=
    cacheGet_delete_self _ _
  refine ⟨?_, ?_, ?_⟩
  · simp [confirmAction, h6, h7, h8, hsendC, h12, createMessage, hmk, h9,
      buildPolicy, hn]
  · simp [confirmAction, h6, h7, h8, hsendC, h12, createMessage, hmk, h9,
      buildPolicy, hn, hdel]
  · simp [confirmAction, h6, h7, h8, hsendC, h12, createMessage, hmk, h9,
      buildPolicy, hn, hdel]

theorem pending_marker_consumed_once_witness :
    cacheGet wD.cache (pendingBuildKey "conv1") = some (CacheVal.str "sug_gone") ∧
    cacheGet wD.cache "sug_gone" = none ∧
    ((∃ r2, (confirmAction cfgA extC2 "conv1" reqC2 winEmpty wD).2 = .ok r2 ∧
        r2.policyReady = none ∧ r2.installRequired = none ∧
        r2.message.content = "done") ∧
      cacheGet (confirmAction cfgA extC2 "conv1" reqC2 winEmpty wD).1.cache
        (pendingBuildKey "conv1") = none ∧
      (∃ r3, (confirmAction cfgA extC2 "conv1" reqC2 winEmpty
          (confirmAction cfgA extC2 "conv1" reqC2 winEmpty wD).1).2 = .ok r3 ∧
        r3.policyReady = none ∧ r3.installRequired = none)) :=
  ⟨by decide, by decide,
   pending_marker_consumed_once cfgA extC2 "conv1" reqC2 winEmpty wD
     ⟨"install_plugin", true, ""⟩ respConfirm ⟨"done", []⟩ "sug_gone"
     rfl rfl rfl (by decide) (by decide) (by decide)
     (fun r hr => by simp [extC2, hr]) rfl⟩

/-! # Cursor monotonicity -/

theorem cursorLE_refl (o : Option Nat) : cursorLE o o := by
  cases o <;> simp [cursorLE]

theorem cursorLE_trans {a b c : Option Nat} (h1 : cursorLE a b)
    (h2 : cursorLE b c) : cursorLE a c := by
  cases a <;> cases b <;> cases c <;> first
  | (simp [cursorLE] at *; omega)
  | simp [cursorLE] at *

theorem summarizeOldMessages_cursor_cases (cfg : Ctx) (ext : Externals)
    (w : World) (allMsgs : List Msg) :
    (summarizeOldMessages cfg ext w allMsgs).1.cursor = w.cursor ∨
    ∃ m ∈ allMsgs, (summarizeOldMessages cfg ext w allMsgs).1.cursor = some m.createdAt := by
  cases hr2 : (summarizeOldMessages cfg ext w allMsgs).2 with
  | false =>
    left
    rw [summarizeOldMessages_failure cfg ext w allMsgs hr2]
  | true =>
    by_cases hlen : allMsgs.length ≤ cfg.windowSize
    · left
      simp [summarizeOldMessages, hlen]
    · obtain ⟨text, hshape⟩ :=
        summarizeOldMessages_success cfg ext w allMsgs hlen hr2
      have hkk : allMsgs.length - cfg.windowSize - 1 < allMsgs.length := by
        simp at hlen; omega
      have hlast : (allMsgs.take (allMsgs.length - cfg.windowSize)).getLastD defaultMsg
          = allMsgs.get ⟨allMsgs.length - cfg.windowSize - 1, hkk⟩ :=
        getLastD_take allMsgs (allMsgs.length - cfg.windowSize) defaultMsg
          (by simp at hlen; omega) (by omega)
      right
      exact ⟨allMsgs.get ⟨allMsgs.length - cfg.windowSize - 1, hkk⟩,
        List.get_mem allMsgs _ _, by rw [hshape, hlast]⟩

theorem getWindow_cursor_step (cfg : Ctx) (ext : Externals) (w : World) :
    cursorLE w.cursor (getConversationWindow cfg ext w).1.cursor := by
  cases hc : w.cursor with
  | none => simp [cursorLE]
  | some c =>
    by_cases hA : countSince w c ≤ cfg.windowSize
    · rw [gcw_cursor_low cfg ext w c hc hA]
      rw [hc]; exact cursorLE_refl _
    · by_cases hhi : cfg.summarizeTrigger < countSince w c
      · rcases summarizeOldMessages_cursor_cases cfg ext w (getSince w c)
          with heq | ⟨m, hmem, heq⟩
        · have hc2 : (summarizeOldMessages cfg ext w (getSince w c)).1.cursor
              = some c := by rw [heq, hc]
          rw [gcw_cursor_high cfg ext w c c hc hA hhi hc2]
          rw [hc2]; exact cursorLE_refl _
        · have hcm : c < m.createdAt := ((mem_msgsSince w.msgs c m).mp hmem).2
          rw [gcw_cursor_high cfg ext w c m.createdAt hc hA hhi heq]
          rw [heq]
          show c ≤ m.createdAt
          omega
      · rw [gcw_cursor_mid cfg ext w c hc hA hhi]
        rw [hc]; exact cursorLE_refl _

/-- **C4.** The summary cursor is monotonically non-decreasing: across any
sequence of operations (message creations and window computations, the
latter including any summarizations they perform — which only ever store
the timestamp of a message created strictly after the previous cursor), the
cursor read by `GetSummaryWithCursor` never moves backwards and never
becomes unset. -/
theorem summary_cursor_monotone (cfg : Ctx) (ops : List Op) (w : World) :
    cursorLE w.cursor (applyOps cfg w ops).cursor := by
  induction ops generalizing w with
  | nil => exact cursorLE_refl _
  | cons op rest ih =>
    have hstep : cursorLE w.cursor (applyOp cfg w op).cursor := by
      cases op with
      | create role content contentType => exact cursorLE_refl _
      | window ext => exact getWindow_cursor_step cfg ext w
    exact cursorLE_trans hstep (ih (applyOp cfg w op))

/-- **C5.** For a conversation with no cursor whose total exceeds the
trigger, when summarization fails (engine error or empty text response)
`getConversationWindow` still returns without error, yielding the full
message list and no summary: a summarization failure never fails the
caller's turn. -/
theorem getConversationWindow_failure_degrades
    (cfg : Ctx) (ext : Externals) (w : World)
    (hcur : w.cursor = none)
    (htrig : cfg.summarizeTrigger < w.msgs.length)
    (hfail :
      ext.send (summarizationRequest cfg w.summary
        (w.msgs.take (w.msgs.length - cfg.windowSize))) = none ∨
      ∃ resp,
        ext.send (summarizationRequest cfg w.summary
          (w.msgs.take (w.msgs.length - cfg.windowSize))) = some resp ∧
        extractFirstText resp = "") :
    getConversationWindow cfg ext w = (w, ⟨w.msgs, none, w.msgs.length⟩) := by
  by_cases hle : w.msgs.length ≤ cfg.windowSize
  · simp [getConversationWindow, hcur, countByConversationID, getByConversationID, hle]
  · have hsum : summarizeOldMessages cfg ext w w.msgs = (w, false) := by
      rcases hfail with hnone | ⟨resp, hsend, htext⟩
      · simp [summarizeOldMessages, hle, hnone]
      · simp [summarizeOldMessages, hle, hsend, htext]
    simp [getConversationWindow, hcur, countByConversationID, getByConversationID,
      hle, htrig, hsum]

theorem getConversationWindow_failure_degrades_witness :
    wB.cursor = none ∧ cfgB.summarizeTrigger < wB.msgs.length ∧
    getConversationWindow cfgB extStub wB = (wB, ⟨wB.msgs, none, wB.msgs.length⟩) :=
  ⟨rfl, by decide,
   getConversationWindow_failure_degrades cfgB extStub wB rfl (by decide) (Or.inl rfl)⟩

/-- **C1 counterexample.** In the cursor-exists branch with
`windowSize < active count ≤ summarizeTrigger`, a message created after the
cursor (`mA2`) is absent both from the returned recent-`windowSize` list and
from the set of messages ever folded into the summary: the claim that no
message is ever silently dropped is false on this branch. -/
theorem getConversationWindow_drops_message_counterexample :
    wA.cursor = some 1 ∧
    cfgA.windowSize < countSince wA 1 ∧ countSince wA 1 ≤ cfgA.summarizeTrigger ∧
    mA2 ∈ wA.msgs ∧ 1 < mA2.createdAt ∧
    mA2 ∉ (getConversationWindow cfgA extStub wA).2.messages ∧
    mA2 ∉ (getConversationWindow cfgA extStub wA).1.folded := by
  refine ⟨rfl, by decide, by decide, by decide, by decide, by decide, by decide⟩

/-- **C1 (amended).** Every message of the conversation is accounted for by
`getConversationWindow` — verbatim in the returned window or folded into the
summary — in the no-cursor branches and in the cursor branches where either
the active count fits in the window or a summarization that advances the
cursor runs; in the remaining cursor-exists branch (more than `windowSize`
active messages without a cursor-advancing summarization) active messages
older than the recent `windowSize` are dropped from both, as the
counterexample shows. -/
theorem getConversationWindow_accounting
    (cfg : Ctx) (ext : Externals) (w : World)
    (hsort : StrictChron w.msgs)
    (hinv : SummInv w)
    (hbr : ∀ c, w.cursor = some c →
      countSince w c ≤ cfg.windowSize ∨
      (cfg.summarizeTrigger < countSince w c ∧
        (getConversationWindow cfg ext w).1.cursor ≠ some c)) :
    ∀ m ∈ w.msgs,
      m ∈ (getConversationWindow cfg ext w).2.messages ∨
      m ∈ (getConversationWindow cfg ext w).1.folded := by
  intro m hm
  cases hc : w.cursor with
  | none =>
    by_cases hle : w.msgs.length ≤ cfg.windowSize
    · rw [gcw_nocursor_low cfg ext w hc hle]
      exact Or.inl hm
    · by_cases hhi : cfg.summarizeTrigger < w.msgs.length
      · cases hr2 : (summarizeOldMessages cfg ext w w.msgs).2 with
        | false =>
          rw [gcw_nocursor_high_fail cfg ext w hc hle hhi hr2]
          exact Or.inl hm
        | true =>
          obtain ⟨text, hshape⟩ :=
            summarizeOldMessages_success cfg ext w w.msgs hle hr2
          have hkk : w.msgs.length - cfg.windowSize - 1 < w.msgs.length := by
            simp at hle; omega
          have hlast : (w.msgs.take (w.msgs.length - cfg.windowSize)).getLastD defaultMsg
              = w.msgs.get ⟨w.msgs.length - cfg.windowSize - 1, hkk⟩ :=
            getLastD_take w.msgs (w.msgs.length - cfg.windowSize) defaultMsg
              (by simp at hle; omega) (by omega)
          have hc2 : (summarizeOldMessages cfg ext w w.msgs).1.cursor
              = some ((w.msgs.get ⟨w.msgs.length - cfg.windowSize - 1, hkk⟩).createdAt) := by
            rw [hshape, hlast]
          rw [gcw_nocursor_high_success cfg ext w _ hc hle hhi hr2 hc2]
          have hmsgs1 : (summarizeOldMessages cfg ext w w.msgs).1.msgs = w.msgs := by
            rw [hshape]
          have hsince : msgsSince w.msgs
              ((w.msgs.get ⟨w.msgs.length - cfg.windowSize - 1, hkk⟩).createdAt)
              = w.msgs.drop (w.msgs.length - cfg.windowSize) := by
            have := msgsSince_get_strict w.msgs hsort
              (w.msgs.length - cfg.windowSize - 1) hkk
            rw [this]
            congr 1
            simp at hle; omega
          have hlen : (msgsSince w.msgs
              ((w.msgs.get ⟨w.msgs.length - cfg.windowSize - 1, hkk⟩).createdAt)).length
              ≤ cfg.windowSize := by
            rw [hsince, List.length_drop]; omega
          have hwin : getRecentSince (summarizeOldMessages cfg ext w w.msgs).1
              ((w.msgs.get ⟨w.msgs.length - cfg.windowSize - 1, hkk⟩).createdAt)
              cfg.windowSize
              = w.msgs.drop (w.msgs.length - cfg.windowSize) := by
            unfold getRecentSince
            rw [hmsgs1]
            rw [List.take_of_length_le (by simpa using hlen), List.reverse_reverse, hsince]
          rw [hwin]
          -- split m into old prefix vs kept suffix
          have hsplit := List.take_append_drop (w.msgs.length - cfg.windowSize) w.msgs
          rw [← hsplit] at hm
          rcases List.mem_append.mp hm with hold | hnew
          · right
            rw [hshape]
            exact List.mem_append.mpr (Or.inr hold)
          · exact Or.inl hnew
      · rw [gcw_nocursor_mid cfg ext w hc hle hhi]
        exact Or.inl hm
  | some c =>
    by_cases hA : countSince w c ≤ cfg.windowSize
    · rw [gcw_cursor_low cfg ext w c hc hA]
      by_cases hmc : c < m.createdAt
      · exact Or.inl ((mem_msgsSince w.msgs c m).mpr ⟨hm, hmc⟩)
      · exact Or.inr (hinv c hc m hm (by omega))
    · rcases hbr c hc with h1 | ⟨h2, hne⟩
      · exact absurd h1 hA
      · cases hr2 : (summarizeOldMessages cfg ext w (getSince w c)).2 with
        | false =>
          exfalso
          have hw := summarizeOldMessages_failure cfg ext w (getSince w c) hr2
          have : (getConversationWindow cfg ext w).1.cursor = some c := by
            rw [gcw_cursor_high cfg ext w c c hc hA h2 (by rw [hw]; exact hc)]
            rw [hw]; exact hc
          exact hne this
        | true =>
          have hlenAS : ¬ (getSince w c).length ≤ cfg.windowSize := by
            simpa [getSince, countSince] using hA
          obtain ⟨text, hshape⟩ :=
            summarizeOldMessages_success cfg ext w (getSince w c) hlenAS hr2
          have hsortAS : StrictChron (getSince w c) :=
            List.Pairwise.filter _ hsort
          have hkk : (getSince w c).length - cfg.windowSize - 1 < (getSince w c).length := by
            simp at hlenAS; omega
          have hlast : ((getSince w c).take ((getSince w c).length - cfg.windowSize)).getLastD defaultMsg
              = (getSince w c).get ⟨(getSince w c).length - cfg.windowSize - 1, hkk⟩ :=
            getLastD_take (getSince w c) ((getSince w c).length - cfg.windowSize)
              defaultMsg (by simp at hlenAS; omega) (by omega)
          set piv := (getSince w c).get ⟨(getSince w c).length - cfg.windowSize - 1, hkk⟩ with hpiv
          have hc2 : (summarizeOldMessages cfg ext w (getSince w c)).1.cursor
              = some piv.createdAt := by
            rw [hshape, hlast]
          rw [gcw_cursor_high cfg ext w c piv.createdAt hc hA h2 hc2]
          have hmsgs1 : (summarizeOldMessages cfg ext w (getSince w c)).1.msgs = w.msgs := by
            rw [hshape]
          have hpmem : piv ∈ getSince w c := List.get_mem _ _ _
          have hcpiv : c < piv.createdAt :=
            ((mem_msgsSince w.msgs c piv).mp hpmem).2
          have hsinceAS : msgsSince (getSince w c) piv.createdAt
              = (getSince w c).drop ((getSince w c).length - cfg.windowSize) := by
            have := msgsSince_get_strict (getSince w c) hsortAS
              ((getSince w c).length - cfg.windowSize - 1) hkk
            rw [this]
            congr 1
            simp at hlenAS; omega
          have hsince : msgsSince w.msgs piv.createdAt
              = (getSince w c).drop ((getSince w c).length - cfg.windowSize) := by
            rw [← msgsSince_msgsSince w.msgs c piv.createdAt (by omega)]
            exact hsinceAS
          have hlen : (msgsSince w.msgs piv.createdAt).length ≤ cfg.windowSize := by
            rw [hsince, List.length_drop]; omega
          have hwin : getRecentSince (summarizeOldMessages cfg ext w (getSince w c)).1
              piv.createdAt cfg.windowSize
              = (getSince w c).drop ((getSince w c).length - cfg.windowSize) := by
            unfold getRecentSince
            rw [hmsgs1]
            rw [List.take_of_length_le (by simpa using hlen), List.reverse_reverse, hsince]
          rw [hwin]
          by_cases hmc : c < m.createdAt
          · have hmAS : m ∈ getSince w c := (mem_msgsSince w.msgs c m).mpr ⟨hm, hmc⟩
            have hsplit := List.take_append_drop
              ((getSince w c).length - cfg.windowSize) (getSince w c)
            rw [← hsplit] at hmAS
            rcases List.mem_append.mp hmAS with hold | hnew
            · right
              rw [hshape]
              exact List.mem_append.mpr (Or.inr hold)
            · exact Or.inl hnew
          · right
            rw [hshape]
            exact List.mem_append.mpr (Or.inl (hinv c hc m hm (by omega)))

theorem getConversationWindow_accounting_witness :
    StrictChron wB.msgs ∧ SummInv wB ∧
    (∀ c, wB.cursor = some c →
      countSince wB c ≤ cfgA.windowSize ∨
      (cfgA.summarizeTrigger < countSince wB c ∧
        (getConversationWindow cfgA extStub wB).1.cursor ≠ some c)) ∧
    (∀ m ∈ wB.msgs,
      m ∈ (getConversationWindow cfgA extStub wB).2.messages ∨
      m ∈ (getConversationWindow cfgA extStub wB).1.folded) :=
  ⟨by decide, by decide, by decide,
   getConversationWindow_accounting cfgA extStub wB (by decide) (by decide) (by decide)⟩

theorem summarizeOldMessages_cursor_exact_witness :
    StrictChron wB.msgs ∧ cfgA.windowSize < wB.msgs.length ∧
    (summarizeOldMessages cfgA extText wB wB.msgs).2 = true ∧
    ((summarizeOldMessages cfgA extText wB wB.msgs).1.cursor =
      some ((wB.msgs.getD (wB.msgs.length - cfgA.windowSize - 1) defaultMsg).createdAt) ∧
     countSince (summarizeOldMessages cfgA extText wB wB.msgs).1
      ((wB.msgs.getD (wB.msgs.length - cfgA.windowSize - 1) defaultMsg).createdAt)
      = cfgA.windowSize) :=
  ⟨by decide, by decide, by decide,
   summarizeOldMessages_cursor_exact cfgA extText wB (by decide) (by decide) (by decide)⟩

end AgentBackend
